import Mathlib

/-!
Verification of the pgdumplib custom-format archive engine
(`pgdumplib/dump.py`, `pgdumplib/constants.py`, `pgdumplib/converters.py`)
against its natural-language specification.

The embedding models the byte-level codec, the entry model, the archive
writer and reader, the spill store and the row converters as pure Lean
functions over lists of bytes.  Python byte strings are `List Nat`
(each element one byte), and decoded text is also `List Nat` (one code
point per element); for the fields handled here encoding and decoding
are mutually inverse, so they are modelled as the identity.
Python `int` is `Int` (arbitrary precision), file positions are `Nat`.
Functions that can raise return `Option` or `Except`.
-/

namespace Pgdumplib

/-- Decoded text and raw byte strings: one `Nat` per byte / code point. -/
abbrev Str : Type := List Nat

/-- Code points of a Lean string literal, used to transcribe the Python
string constants. -/
def strB (s : String) : Str := s.data.map Char.toNat

/-! ## Constants (src/pgdumplib/constants.py) -/

/-- `constants.BLK_DATA = b'\x01'` as the single byte value. -/
def BLK_DATA : Nat := 1

/-- `constants.BLK_BLOBS = b'\x03'` as the single byte value. -/
def BLK_BLOBS : Nat := 3

/-- `constants.K_OFFSET_POS_NOT_SET = 1`. -/
def K_OFFSET_POS_NOT_SET : Nat := 1

/-- `constants.K_OFFSET_POS_SET = 2`. -/
def K_OFFSET_POS_SET : Nat := 2

/-- `constants.K_OFFSET_NO_DATA = 3`. -/
def K_OFFSET_NO_DATA : Nat := 3

/-- `constants.MAGIC = b'PGDMP'`. -/
def MAGIC : List Nat := strB "PGDMP"

/-- `constants.MIN_VER = (1, 12, 0)`. -/
def MIN_VER : Nat × Nat × Nat := (1, 12, 0)

/-- `constants.MAX_VER = (1, 13, 0)`. -/
def MAX_VER : Nat × Nat × Nat := (1, 13, 0)

/-- `constants.BLOBS = 'BLOBS'`. -/
def BLOBS : Str := strB "BLOBS"

/-- `constants.ENCODING = 'ENCODING'`. -/
def ENCODING : Str := strB "ENCODING"

/-- `constants.TABLE_DATA = 'TABLE DATA'`. -/
def TABLE_DATA : Str := strB "TABLE DATA"

/-- `constants.SECTION_NONE = 'None'`. -/
def SECTION_NONE : Str := strB "None"

/-- `constants.SECTION_PRE_DATA = 'Pre-Data'`. -/
def SECTION_PRE_DATA : Str := strB "Pre-Data"

/-- `constants.SECTION_DATA = 'DATA'`. -/
def SECTION_DATA : Str := strB "DATA"

/-- `constants.SECTION_POST_DATA = 'Post-Data'`. -/
def SECTION_POST_DATA : Str := strB "Post-Data"

/-- `constants.SECTIONS` in list order. -/
def SECTIONS : List Str := [SECTION_NONE, SECTION_PRE_DATA, SECTION_DATA, SECTION_POST_DATA]

/-! ## Codec primitives (src/pgdumplib/dump.py)

`Dump._write_byte` packs one unsigned byte (`struct.pack('B', v)`); all
call sites mask the value to eight bits first, so the modulus below is
the identity on every value actually written. -/

/-- `Dump._write_byte`. -/
def writeByte (v : Nat) : List Nat := [v % 256]

/-- The magnitude-byte loop shared by `Dump._write_int` and
`Dump._write_offset`: `width` iterations of
`write_byte(value & 0xFF); value >>= 8`, least significant byte first. -/
def magBytes : Nat → Nat → List Nat
  | 0, _ => []
  | width + 1, v => (v % 256) :: magBytes width (v / 256)

/-- `Dump._write_int`: one sign byte (1 when negative, else 0) followed by
`intsize` little-endian magnitude bytes of the absolute value. -/
def writeInt (intsize : Nat) (value : Int) : List Nat :=
  (if value < 0 then 1 else 0) :: magBytes intsize value.natAbs

/-- `Dump._read_byte`: `struct.unpack` of one byte, or `None` when the
stream is exhausted (the `struct.error` branch). -/
def readByte : List Nat → Option Nat × List Nat
  | [] => (none, [])
  | b :: rest => (some b, rest)

/-- The magnitude loop of `Dump._read_int`: `intsize` iterations of
`bv = (read_byte() or 0) & 0xFF; value += bv << bs; bs += 8`.  A missing
byte counts as zero and consumes nothing. -/
def readMag : Nat → List Nat → Nat × List Nat
  | 0, bs => (0, bs)
  | _ + 1, [] => (0, [])
  | width + 1, b :: rest =>
    (b % 256 + 256 * (readMag width rest).1, (readMag width rest).2)

/-- `Dump._read_int`: sign byte then magnitude; `None` when the stream is
exhausted before the sign byte.  A nonzero sign byte negates the value. -/
def readInt (intsize : Nat) (bs : List Nat) : Option Int × List Nat :=
  match readByte bs with
  | (none, rest) => (none, rest)
  | (some sign, rest) =>
    (some (if sign ≠ 0 then -((readMag intsize rest).1 : Int)
           else ((readMag intsize rest).1 : Int)),
     (readMag intsize rest).2)

/-! ## Codec round-trip and truncation lemmas -/

/-- The magnitude loops are mutually inverse below `256 ^ width`. -/
theorem readMag_magBytes (width : Nat) :
    ∀ (v : Nat) (rest : List Nat), v < 256 ^ width →
      readMag width (magBytes width v ++ rest) = (v, rest) := by
  induction width with
  | zero =>
    intro v rest hv
    have : v = 0 := by simpa using hv
    simp [this, magBytes, readMag]
  | succ w ih =>
    intro v rest hv
    have hdiv : v / 256 < 256 ^ w := by
      rw [Nat.div_lt_iff_lt_mul (by norm_num : (0 : Nat) < 256)]
      calc v < 256 ^ (w + 1) := hv
        _ = 256 ^ w * 256 := by ring
    simp only [magBytes, List.cons_append, readMag, List.append_eq,
      ih (v / 256) rest hdiv, Prod.mk.injEq]
    refine ⟨?_, trivial⟩
    have := Nat.mod_add_div v 256
    omega

/-- Reading a magnitude from a truncated stream gives the same value as
reading it from the stream padded with zero bytes. -/
theorem readMag_fst_pad (width : Nat) :
    ∀ (bs : List Nat),
      (readMag width bs).1
        = (readMag width (bs ++ List.replicate (width - bs.length) 0)).1 := by
  induction width with
  | zero => intro bs; simp [readMag]
  | succ w ih =>
    intro bs
    match bs with
    | [] =>
      simp only [readMag, List.nil_append, Nat.sub_zero, List.length_nil,
        List.replicate_succ]
      have hz : ∀ k, (readMag k (List.replicate k 0)).1 = 0 := by
        intro k
        induction k with
        | zero => simp [readMag]
        | succ k ihk => simp [List.replicate_succ, readMag, ihk]
      simp [readMag, hz w]
    | b :: rest =>
      simp only [readMag, List.cons_append, List.append_eq, List.length_cons]
      have : w + 1 - (rest.length + 1) = w - rest.length := by omega
      rw [this, ← ih rest]

/-- C2: for every signed integer `n` with `|n| < 2^(8·intsize)`, writing `n`
with `Dump._write_int` and reading the bytes back with `Dump._read_int`
from the same position yields `n` and leaves the stream position directly
after the written bytes. -/
theorem readInt_writeInt_roundtrip (intsize : Nat) (n : Int) (rest : List Nat)
    (h : n.natAbs < 2 ^ (8 * intsize)) :
    readInt intsize (writeInt intsize n ++ rest) = (some n, rest) := by
  have h256 : n.natAbs < 256 ^ intsize := by
    calc n.natAbs < 2 ^ (8 * intsize) := h
      _ = 256 ^ intsize := by rw [pow_mul]; norm_num
  by_cases hn : n < 0
  · simp only [writeInt, if_pos hn, List.cons_append, readInt, readByte,
      readMag_magBytes intsize n.natAbs rest h256]
    simp only [ne_eq, one_ne_zero, not_false_eq_true, if_true, Prod.mk.injEq,
      Option.some.injEq, and_true]
    omega
  · simp only [writeInt, if_neg hn, List.cons_append, readInt, readByte,
      readMag_magBytes intsize n.natAbs rest h256]
    simp only [ne_eq, not_true_eq_false, if_false, Prod.mk.injEq,
      Option.some.injEq, and_true]
    omega

/-- Witness for `readInt_writeInt_roundtrip` at `intsize = 4`, `n = -5`. -/
theorem readInt_writeInt_roundtrip_witness :
    readInt 4 (writeInt 4 (-5) ++ [7]) = (some (-5), [7]) :=
  readInt_writeInt_roundtrip 4 (-5) [7] (by norm_num)

/-- C10: decoding an integer from a truncated archive never raises.
`Dump._read_int` returns `None` exactly when the stream is exhausted
before the sign byte; once the sign byte is present it always returns a
value, and any missing magnitude bytes are treated as zero (the value
equals the one read from the zero-padded stream). -/
theorem readInt_total_at_eof :
    (∀ intsize, readInt intsize [] = (none, [])) ∧
    (∀ (intsize : Nat) (s : Nat) (bs : List Nat),
      ((readInt intsize (s :: bs)).1).isSome = true ∧
      (readInt intsize (s :: bs)).1
        = (readInt intsize
            (s :: (bs ++ List.replicate (intsize - bs.length) 0))).1) := by
  constructor
  · intro intsize
    simp [readInt, readByte]
  · intro intsize s bs
    constructor
    · simp [readInt, readByte]
    · simp only [readInt, readByte]
      rw [readMag_fst_pad intsize bs]

/-! ## COPY-text unescaping (src/pgdumplib/converters.py)

`unescape_copy_text` works on decoded Python strings; here a string is a
list of code points.  Relevant code points: backslash 92, `0`..`7` are
48..55, `x` 120, `b` 98, `f` 102, `n` 110, `r` 114, `t` 116, `v` 118. -/

/-- `'0' <= c <= '7'`. -/
def isOctDigit (c : Nat) : Bool := decide (48 ≤ c ∧ c ≤ 55)

/-- Membership in `'0123456789abcdefABCDEF'`. -/
def isHexDigit (c : Nat) : Bool :=
  decide ((48 ≤ c ∧ c ≤ 57) ∨ (97 ≤ c ∧ c ≤ 102) ∨ (65 ≤ c ∧ c ≤ 70))

/-- Value of one hexadecimal digit. -/
def hexVal (c : Nat) : Nat :=
  if c ≤ 57 then c - 48 else if c ≤ 70 then c - 55 else c - 87

/-- The octal arm of the scanning loop: starting from the first octal
digit `c`, examine up to two further octal digits one `if` at a time as
the source does, returning the accumulated value and how many extra
characters were consumed. -/
def octStep (c : Nat) (rest : Str) : Nat × Nat :=
  match rest with
  | d2 :: rest2 =>
    if isOctDigit d2 then
      match rest2 with
      | d3 :: _ =>
        if isOctDigit d3 then (((c - 48) * 8 + (d2 - 48)) * 8 + (d3 - 48), 2)
        else ((c - 48) * 8 + (d2 - 48), 1)
      | [] => ((c - 48) * 8 + (d2 - 48), 1)
    else (c - 48, 0)
  | [] => (c - 48, 0)

/-- The hex arm of the scanning loop: Python inspects `field[i+1:i+3]`
and stops at the first non-hex character; `none` when no hex digit
follows (the literal-`x` case).  Returns the value and the number of
characters consumed. -/
def hexStep (rest : Str) : Option (Nat × Nat) :=
  match rest with
  | h1 :: rest1 =>
    if isHexDigit h1 then
      match rest1 with
      | h2 :: _ =>
        if isHexDigit h2 then some (hexVal h1 * 16 + hexVal h2, 2)
        else some (hexVal h1, 1)
      | [] => some (hexVal h1, 1)
    else none
  | [] => none

/-- The scanning loop of `unescape_copy_text`: Python's index-based
`while i < len(field)` loop written as list recursion.  A backslash at
the very end is emitted literally (`i + 1 < len(field)` fails); a
backslash followed by a character dispatches on that character, and the
final arm emits any other escaped character literally. -/
def unescapeLoop : Str → Str
  | [] => []
  | [92] => [92]
  | 92 :: c :: rest =>
    if isOctDigit c then
      (octStep c rest).1 % 256 :: unescapeLoop (rest.drop (octStep c rest).2)
    else if c = 120 then
      match hexStep rest with
      | some vk => vk.1 % 256 :: unescapeLoop (rest.drop vk.2)
      | none => 120 :: unescapeLoop rest
    else if c = 98 then 8 :: unescapeLoop rest
    else if c = 102 then 12 :: unescapeLoop rest
    else if c = 110 then 10 :: unescapeLoop rest
    else if c = 114 then 13 :: unescapeLoop rest
    else if c = 116 then 9 :: unescapeLoop rest
    else if c = 118 then 11 :: unescapeLoop rest
    else c :: unescapeLoop rest
  | c :: rest => c :: unescapeLoop rest
termination_by s => s.length
decreasing_by all_goals simp_wf <;> omega

/-- `unescape_copy_text`, including the `'\\' not in field` fast path. -/
def unescape_copy_text (field : Str) : Str :=
  if 92 ∈ field then unescapeLoop field else field

/-! ## The unescape grammar as stated by the specification -/

/-- Value of a string of octal digits. -/
def octFold (ds : Str) : Nat := ds.foldl (fun a d => a * 8 + (d - 48)) 0

/-- Value of a string of hex digits. -/
def hexFold (hs : Str) : Nat := hs.foldl (fun a d => a * 16 + hexVal d) 0

/-- The escape grammar exactly as the specification states it: after a
backslash, `b f n r t v` map to the control characters; `\NNN` with one
to three octal digits (greedily collected) is the single byte
`value & 0o377`; `\xNN` with one or two hex digits (greedily collected)
is the single byte `value & 0xFF`, while an `x` with no following hex
digit is literal; `\\` is a single backslash and any other `\X` is the
literal `X` (both via the final arm); a trailing lone backslash is
emitted literally; everything not preceded by a backslash passes
through unchanged. -/
def unescapeGrammar : Str → Str
  | [] => []
  | [92] => [92]
  | 92 :: c :: rest =>
    if isOctDigit c then
      octFold (c :: (rest.take 2).takeWhile isOctDigit) % 256
        :: unescapeGrammar (rest.drop ((rest.take 2).takeWhile isOctDigit).length)
    else if c = 120 then
      if (rest.take 2).takeWhile isHexDigit = [] then
        120 :: unescapeGrammar rest
      else
        hexFold ((rest.take 2).takeWhile isHexDigit) % 256
          :: unescapeGrammar (rest.drop ((rest.take 2).takeWhile isHexDigit).length)
    else if c = 98 then 8 :: unescapeGrammar rest
    else if c = 102 then 12 :: unescapeGrammar rest
    else if c = 110 then 10 :: unescapeGrammar rest
    else if c = 114 then 13 :: unescapeGrammar rest
    else if c = 116 then 9 :: unescapeGrammar rest
    else if c = 118 then 11 :: unescapeGrammar rest
    else c :: unescapeGrammar rest
  | c :: rest => c :: unescapeGrammar rest
termination_by s => s.length
decreasing_by all_goals simp_wf <;> omega

/-- The stepwise octal collection of the source agrees with the greedy
grammar formulation. -/
theorem octStep_eq_grammar (c : Nat) (rest : Str) :
    octStep c rest
      = (octFold (c :: (rest.take 2).takeWhile isOctDigit),
         ((rest.take 2).takeWhile isOctDigit).length) := by
  match rest with
  | [] => simp [octStep, octFold]
  | [d2] =>
    by_cases h : isOctDigit d2 <;>
      simp [octStep, octFold, h, List.takeWhile]
  | d2 :: d3 :: t =>
    by_cases h2 : isOctDigit d2 <;> by_cases h3 : isOctDigit d3 <;>
      simp [octStep, octFold, h2, h3, List.takeWhile]

/-- The stepwise hex collection of the source agrees with the greedy
grammar formulation. -/
theorem hexStep_eq_grammar (rest : Str) :
    hexStep rest
      = (if (rest.take 2).takeWhile isHexDigit = [] then none
         else some (hexFold ((rest.take 2).takeWhile isHexDigit),
                    ((rest.take 2).takeWhile isHexDigit).length)) := by
  match rest with
  | [] => simp [hexStep]
  | [h1] =>
    by_cases h : isHexDigit h1 <;>
      simp [hexStep, hexFold, h, List.takeWhile]
  | h1 :: h2 :: t =>
    by_cases ha : isHexDigit h1 <;> by_cases hb : isHexDigit h2 <;>
      simp [hexStep, hexFold, ha, hb, List.takeWhile]

/-- The scanning loop satisfies the specification grammar. -/
theorem unescapeLoop_eq_grammar (s : Str) : unescapeLoop s = unescapeGrammar s := by
  induction s using unescapeLoop.induct with
  | case1 => simp [unescapeLoop, unescapeGrammar]
  | case2 => simp [unescapeLoop, unescapeGrammar]
  | case3 c rest hoct ih =>
    simp only [unescapeLoop, unescapeGrammar, if_pos hoct]
    rw [ih, octStep_eq_grammar]
  | case4 rest vk hvk hx ih =>
    have h := hexStep_eq_grammar rest
    rw [hvk] at h
    by_cases he : (rest.take 2).takeWhile isHexDigit = []
    · rw [if_pos he] at h
      exact absurd h (by simp)
    · rw [if_neg he] at h
      have hv := Option.some.inj h
      simp only [unescapeLoop, unescapeGrammar, hvk, if_neg hx, if_neg he]
      rw [hv] at ih
      simp only [] at ih
      simp [hv, ih]
  | case5 rest hnone hx ih =>
    have h := hexStep_eq_grammar rest
    rw [hnone] at h
    by_cases he : (rest.take 2).takeWhile isHexDigit = []
    · simp only [unescapeLoop, unescapeGrammar, hnone, if_neg hx, if_pos he]
      simp [ih]
    · rw [if_neg he] at h
      exact absurd h.symm (by simp)
  | case6 rest h1 h2 ih => simp [unescapeLoop, unescapeGrammar, h1, h2, ih]
  | case7 rest h1 h2 h3 ih => simp [unescapeLoop, unescapeGrammar, h1, h2, h3, ih]
  | case8 rest h1 h2 h3 h4 ih =>
    simp [unescapeLoop, unescapeGrammar, h1, h2, h3, h4, ih]
  | case9 rest h1 h2 h3 h4 h5 ih =>
    simp [unescapeLoop, unescapeGrammar, h1, h2, h3, h4, h5, ih]
  | case10 rest h1 h2 h3 h4 h5 h6 ih =>
    simp [unescapeLoop, unescapeGrammar, h1, h2, h3, h4, h5, h6, ih]
  | case11 rest h1 h2 h3 h4 h5 h6 h7 ih =>
    simp [unescapeLoop, unescapeGrammar, h1, h2, h3, h4, h5, h6, h7, ih]
  | case12 c rest h1 h2 h3 h4 h5 h6 h7 h8 ih =>
    simp [unescapeLoop, unescapeGrammar, h1, h2, h3, h4, h5, h6, h7, h8, ih]
  | case13 c rest h1 h2 ih =>
    have hc : c ≠ 92 := by
      intro hceq
      cases rest with
      | nil => exact h1 hceq rfl
      | cons a t => exact h2 a t hceq rfl
    cases rest with
    | nil => simp [unescapeLoop, unescapeGrammar, hc]
    | cons a t => simp [unescapeLoop, unescapeGrammar, hc, ih]

/-- Both scanners pass a non-backslash head character through unchanged. -/
theorem unescapeGrammar_cons_ne (c : Nat) (t : Str) (hc : c ≠ 92) :
    unescapeGrammar (c :: t) = c :: unescapeGrammar t := by
  cases t with
  | nil => simp [unescapeGrammar, hc]
  | cons a r => simp [unescapeGrammar, hc]

/-- A string without a backslash unescapes to itself. -/
theorem unescapeGrammar_no_backslash (s : Str) (h : 92 ∉ s) :
    unescapeGrammar s = s := by
  induction s with
  | nil => simp [unescapeGrammar]
  | cons c t ih =>
    have hc : c ≠ 92 := fun e => h (by simp [e])
    have ht : 92 ∉ t := fun m => h (List.mem_cons_of_mem c m)
    rw [unescapeGrammar_cons_ne c t hc, ih ht]

/-- C8: for every input string, `unescape_copy_text` computes exactly the
specification's escape grammar `unescapeGrammar`: `b f n r t v` become the
control characters, `\NNN` with 1-3 octal digits is the byte
`value & 0o377`, `\xNN` with 1-2 greedy hex digits is the byte
`value & 0xFF` with a digitless `x` left literal, `\\` is one backslash,
any other `\X` is the literal `X`, a trailing lone backslash is kept, and
unescaped characters pass through. -/
theorem unescape_copy_text_eq_grammar (field : Str) :
    unescape_copy_text field = unescapeGrammar field := by
  unfold unescape_copy_text
  by_cases h : 92 ∈ field
  · rw [if_pos h, unescapeLoop_eq_grammar]
  · rw [if_neg h, unescapeGrammar_no_backslash field h]

/-! ## Object-type descriptors and the section mapping

`dump.py` refers to many descriptor constants (`constants.SCHEMA`,
`constants.TABLE`, ..., `constants.SECTION_MAPPING`) whose definitions
are not part of the `constants` module included under src/; they are
modelled from the specification below. -/

/-- Modelled from the spec: `constants.SCHEMA`, one of the preferred
Pre-Data descriptors, missing from src/pgdumplib/constants.py. -/
def SCHEMA : Str := strB "SCHEMA"

/-- Modelled from the spec: `constants.EXTENSION`. -/
def EXTENSION : Str := strB "EXTENSION"

/-- Modelled from the spec: `constants.AGGREGATE`. -/
def AGGREGATE : Str := strB "AGGREGATE"

/-- Modelled from the spec: `constants.OPERATOR`. -/
def OPERATOR : Str := strB "OPERATOR"

/-- Modelled from the spec: `constants.OPERATOR_CLASS`. -/
def OPERATOR_CLASS : Str := strB "OPERATOR CLASS"

/-- Modelled from the spec: `constants.CAST`. -/
def CAST : Str := strB "CAST"

/-- Modelled from the spec: `constants.COLLATION`. -/
def COLLATION : Str := strB "COLLATION"

/-- Modelled from the spec: `constants.CONVERSION`. -/
def CONVERSION : Str := strB "CONVERSION"

/-- Modelled from the spec: `constants.PROCEDURAL_LANGUAGE`. -/
def PROCEDURAL_LANGUAGE : Str := strB "PROCEDURAL LANGUAGE"

/-- Modelled from the spec: `constants.FOREIGN_DATA_WRAPPER`. -/
def FOREIGN_DATA_WRAPPER : Str := strB "FOREIGN DATA WRAPPER"

/-- Modelled from the spec: `constants.FOREIGN_SERVER`. -/
def FOREIGN_SERVER : Str := strB "FOREIGN SERVER"

/-- Modelled from the spec: `constants.SERVER`. -/
def SERVER : Str := strB "SERVER"

/-- Modelled from the spec: `constants.DOMAIN`. -/
def DOMAIN : Str := strB "DOMAIN"

/-- Modelled from the spec: `constants.TYPE`. -/
def TYPE : Str := strB "TYPE"

/-- Modelled from the spec: `constants.SHELL_TYPE`. -/
def SHELL_TYPE : Str := strB "SHELL TYPE"

/-- Modelled from the spec: `constants.CHECK_CONSTRAINT`, one of the
preferred Post-Data descriptors. -/
def CHECK_CONSTRAINT : Str := strB "CHECK CONSTRAINT"

/-- Modelled from the spec: `constants.CONSTRAINT`. -/
def CONSTRAINT : Str := strB "CONSTRAINT"

/-- Modelled from the spec: `constants.INDEX`. -/
def INDEX : Str := strB "INDEX"

/-- Modelled from the spec: `constants.TABLE`. -/
def TABLE : Str := strB "TABLE"

/-- Modelled from the spec: `constants.DATABASE`. -/
def DATABASE : Str := strB "DATABASE"

/-- Modelled from the spec: `constants.COMMENT`. -/
def COMMENT : Str := strB "COMMENT"

/-- The `STDSTRINGS` descriptor (a literal string in dump.py). -/
def STDSTRINGS : Str := strB "STDSTRINGS"

/-- The `SEARCHPATH` descriptor (a literal string in dump.py). -/
def SEARCHPATH : Str := strB "SEARCHPATH"

/-- Modelled from the spec: `constants.ACL`, a descriptor of the None
section. -/
def ACL : Str := strB "ACL"

/-- Modelled from the spec: `constants.SECTION_MAPPING`, the fixed map
from descriptor to section, missing from src/pgdumplib/constants.py.
The specification states that `section` is derived from `desc` via a
fixed mapping into the four sections; the assignments below follow the
specification's taxonomy (bootstrap and DDL descriptors are Pre-Data,
`TABLE DATA` and `BLOBS` are Data, constraints and indexes are
Post-Data, comments and ACLs are section None). -/
def SECTION_MAPPING : List (Str × Str) :=
  [(ENCODING, SECTION_PRE_DATA), (STDSTRINGS, SECTION_PRE_DATA),
   (SEARCHPATH, SECTION_PRE_DATA), (SCHEMA, SECTION_PRE_DATA),
   (EXTENSION, SECTION_PRE_DATA), (AGGREGATE, SECTION_PRE_DATA),
   (OPERATOR, SECTION_PRE_DATA), (OPERATOR_CLASS, SECTION_PRE_DATA),
   (CAST, SECTION_PRE_DATA), (COLLATION, SECTION_PRE_DATA),
   (CONVERSION, SECTION_PRE_DATA), (PROCEDURAL_LANGUAGE, SECTION_PRE_DATA),
   (FOREIGN_DATA_WRAPPER, SECTION_PRE_DATA), (FOREIGN_SERVER, SECTION_PRE_DATA),
   (SERVER, SECTION_PRE_DATA), (DOMAIN, SECTION_PRE_DATA),
   (TYPE, SECTION_PRE_DATA), (SHELL_TYPE, SECTION_PRE_DATA),
   (TABLE, SECTION_PRE_DATA), (DATABASE, SECTION_PRE_DATA),
   (TABLE_DATA, SECTION_DATA), (BLOBS, SECTION_DATA),
   (CHECK_CONSTRAINT, SECTION_POST_DATA), (CONSTRAINT, SECTION_POST_DATA),
   (INDEX, SECTION_POST_DATA),
   (COMMENT, SECTION_NONE), (ACL, SECTION_NONE)]

/-- Dictionary lookup in `SECTION_MAPPING`; `none` models the `KeyError`
for an unknown descriptor. -/
def sectionForDesc (desc : Str) : Option Str :=
  (SECTION_MAPPING.find? (fun p => p.1 = desc)).map (fun p => p.2)

/-! ## The entry model (class `Entry` in src/pgdumplib/dump.py)

The dataclass fields in source order; `namespace` is a Lean keyword and
is spelled `nspace` here. -/

structure Entry where
  dump_id : Int
  had_dumper : Bool := false
  table_oid : Str := []
  oid : Str := []
  tag : Str := []
  desc : Str := []
  defn : Str := []
  drop_stmt : Str := []
  copy_stmt : Str := []
  nspace : Str := []
  tablespace : Str := []
  owner : Str := []
  with_oids : Bool := false
  dependencies : List Int := []
  data_state : Nat := K_OFFSET_NO_DATA
  offset : Nat := 0
deriving DecidableEq, Repr

/-- The `Entry.section` property: `constants.SECTION_MAPPING[self.desc]`.
The section is not stored on the entry; it is computed from `desc` on
every access (`none` models the `KeyError` for an unknown `desc`). -/
def Entry.sectionName (e : Entry) : Option Str := sectionForDesc e.desc

/-! ## Offsets, strings, timestamps (src/pgdumplib/dump.py) -/

/-- `Dump._write_offset`: one `data_state` byte then `offsize`
little-endian magnitude bytes. -/
def writeOffset (offsize : Nat) (value : Nat) (data_state : Nat) : List Nat :=
  (data_state % 256) :: magBytes offsize value

/-- The magnitude loop of `Dump._read_offset`:
`value |= bv << (offset * 8)`.  The source accumulates with bitwise or;
recursing over the bytes, the tail's value is shifted left by eight bits
and or-ed below the head byte. -/
def readOffMag : Nat → List Nat → Nat × List Nat
  | 0, bs => (0, bs)
  | _ + 1, [] => (0, [])
  | width + 1, b :: rest =>
    (b ||| ((readOffMag width rest).1 <<< 8), (readOffMag width rest).2)

/-- `Dump._read_offset`: `data_state = read_byte() or 0` then the
magnitude loop. -/
def readOffset (offsize : Nat) (bs : List Nat) : Nat × Nat × List Nat :=
  match readByte bs with
  | (none, rest) => (0, (readOffMag offsize rest).1, (readOffMag offsize rest).2)
  | (some ds, rest) => (ds, (readOffMag offsize rest).1, (readOffMag offsize rest).2)

/-- `Dump._write_str`: the length as a signed int, then the bytes. -/
def writeStr (intsize : Nat) (value : Str) : List Nat :=
  writeInt intsize (value.length : Int) ++ value

/-- `Dump._read_bytes`: read a signed int as the length; when it is
present and positive read that many bytes (fewer when the stream ends),
else return the empty byte string. -/
def readBytes (intsize : Nat) (bs : List Nat) : Str × List Nat :=
  match readInt intsize bs with
  | (some len, rest) =>
    if 0 < len then (rest.take len.toNat, rest.drop len.toNat) else ([], rest)
  | (none, rest) => ([], rest)

/-- A byte below `2 ^ k` or-ed with a value shifted left `k` bits is
their sum: the or in `_read_offset` assembles disjoint byte lanes. -/
theorem lor_shiftLeft_eq_add (k : Nat) :
    ∀ (b v : Nat), b < 2 ^ k → b ||| (v <<< k) = b + 2 ^ k * v := by
  induction k with
  | zero =>
    intro b v hb
    interval_cases b
    simp [Nat.shiftLeft_eq]
  | succ k ih =>
    intro b v hb
    have hdecomp : Nat.bit (Nat.bodd b) (Nat.div2 b) = b := Nat.bit_decomp b
    have hshift : v <<< (k + 1) = Nat.bit false (v <<< k) := by
      simp [Nat.bit, Nat.shiftLeft_eq, Nat.pow_succ]
      ring
    have hdiv : Nat.div2 b < 2 ^ k := by
      rw [Nat.div2_val]
      omega
    calc b ||| (v <<< (k + 1))
        = Nat.bit (Nat.bodd b) (Nat.div2 b) ||| Nat.bit false (v <<< k) := by
          rw [hdecomp, hshift]
      _ = Nat.bit (Nat.bodd b || false) (Nat.div2 b ||| (v <<< k)) :=
          Nat.lor_bit _ _ _ _
      _ = Nat.bit (Nat.bodd b) (Nat.div2 b + 2 ^ k * v) := by
          rw [Bool.or_false, ih _ _ hdiv]
      _ = b + 2 ^ (k + 1) * v := by
          have h2 := Nat.bit_val (Nat.bodd b) (Nat.div2 b)
          rw [hdecomp] at h2
          have hx : 2 ^ (k + 1) * v = 2 * (2 ^ k * v) := by ring
          rw [Nat.bit_val, hx]
          omega

/-- The offset magnitude loop inverts `magBytes` below `256 ^ width`. -/
theorem readOffMag_magBytes (width : Nat) :
    ∀ (v : Nat) (rest : List Nat), v < 256 ^ width →
      readOffMag width (magBytes width v ++ rest) = (v, rest) := by
  induction width with
  | zero =>
    intro v rest hv
    have : v = 0 := by simpa using hv
    simp [this, magBytes, readOffMag]
  | succ w ih =>
    intro v rest hv
    have hdiv : v / 256 < 256 ^ w := by
      rw [Nat.div_lt_iff_lt_mul (by norm_num : (0 : Nat) < 256)]
      calc v < 256 ^ (w + 1) := hv
        _ = 256 ^ w * 256 := by ring
    simp only [magBytes, List.cons_append, readOffMag, List.append_eq,
      ih (v / 256) rest hdiv, Prod.mk.injEq]
    refine ⟨?_, trivial⟩
    have hlt : v % 256 < 2 ^ 8 := by
      have := Nat.mod_lt v (by norm_num : (0 : Nat) < 256)
      norm_num
      omega
    rw [lor_shiftLeft_eq_add 8 (v % 256) (v / 256) hlt]
    have := Nat.mod_add_div v 256
    norm_num
    omega

/-- `_read_offset` inverts `_write_offset` when the data-state byte is
below 256 and the offset below `256 ^ offsize`. -/
theorem readOffset_writeOffset (offsize : Nat) (value ds : Nat)
    (rest : List Nat) (hds : ds < 256) (hv : value < 256 ^ offsize) :
    readOffset offsize (writeOffset offsize value ds ++ rest)
      = (ds, value, rest) := by
  simp only [writeOffset, List.cons_append, readOffset, readByte,
    readOffMag_magBytes offsize value rest hv]
  rw [Nat.mod_eq_of_lt hds]

/-- `_read_bytes` inverts `_write_str` when the length fits the integer
width. -/
theorem readBytes_writeStr (intsize : Nat) (s : Str) (rest : List Nat)
    (h : s.length < 2 ^ (8 * intsize)) :
    readBytes intsize (writeStr intsize s ++ rest) = (s, rest) := by
  have hr : readInt intsize (writeInt intsize (s.length : Int) ++ (s ++ rest))
      = (some (s.length : Int), s ++ rest) := by
    apply readInt_writeInt_roundtrip
    simpa using h
  simp only [writeStr, List.append_assoc, readBytes, hr]
  match s with
  | [] => simp
  | c :: t =>
    have hpos : (0 : Int) < ((c :: t).length : Int) := by
      exact_mod_cast Nat.succ_pos t.length
    rw [if_pos hpos]
    simp

/-! ## Decimal rendering and parsing of dependency ids -/

/-- Decimal digits of a natural number (Python `str` on a nonnegative
int). -/
def natDigits (n : Nat) : Str :=
  if h : n < 10 then [48 + n] else natDigits (n / 10) ++ [48 + n % 10]
termination_by n
decreasing_by
  simp_wf
  exact Nat.div_lt_self (by omega) (by norm_num)

/-- Python `str` of an int: optional minus sign then decimal digits. -/
def intDigits (i : Int) : Str :=
  if i < 0 then 45 :: natDigits i.natAbs else natDigits i.natAbs

/-- Value of a nonempty all-digit string, `none` otherwise. -/
def digitsVal (s : Str) : Option Nat :=
  if s ≠ [] ∧ s.all (fun c => decide (48 ≤ c ∧ c ≤ 57)) then
    some (s.foldl (fun a c => a * 10 + (c - 48)) 0)
  else none

/-- Python `int(bytes)`: optional sign then decimal digits; `none`
models the `ValueError` on malformed input (surrounding whitespace and
underscores, which the archives never contain, are not modelled). -/
def parseDec (s : Str) : Option Int :=
  match s with
  | [] => none
  | c :: t =>
    if c = 45 then (digitsVal t).map (fun n => -(n : Int))
    else if c = 43 then (digitsVal t).map (fun n => (n : Int))
    else (digitsVal (c :: t)).map (fun n => (n : Int))

/-- `natDigits` produces only decimal digits and at least one of them. -/
theorem natDigits_wf (n : Nat) :
    natDigits n ≠ [] ∧
      (natDigits n).all (fun c => decide (48 ≤ c ∧ c ≤ 57)) = true := by
  induction n using Nat.strong_induction_on with
  | _ n ih =>
    by_cases h : n < 10
    · rw [natDigits, dif_pos h]
      refine ⟨by simp, ?_⟩
      simp only [List.all_cons, List.all_nil, Bool.and_true, decide_eq_true_eq]
      omega
    · rw [natDigits, dif_neg h]
      have hd : n / 10 < n := Nat.div_lt_self (by omega) (by norm_num)
      refine ⟨by simp, ?_⟩
      rw [List.all_append, (ih (n / 10) hd).2]
      simp only [Bool.true_and, List.all_cons, List.all_nil, Bool.and_true,
        decide_eq_true_eq]
      have := Nat.mod_lt n (show 0 < 10 by norm_num)
      omega

/-- Folding the decimal digits of `n` on top of accumulator `a`. -/
theorem digits_foldl (n : Nat) :
    ∀ (a : Nat), (natDigits n).foldl (fun a c => a * 10 + (c - 48)) a
      = a * 10 ^ (natDigits n).length + n := by
  induction n using Nat.strong_induction_on with
  | _ n ih =>
    intro a
    by_cases h : n < 10
    · rw [natDigits, dif_pos h]
      simp
    · rw [natDigits, dif_neg h]
      have hd : n / 10 < n := Nat.div_lt_self (by omega) (by norm_num)
      rw [List.foldl_append, ih (n / 10) hd a]
      simp only [List.foldl_cons, List.foldl_nil, List.length_append,
        List.length_cons, List.length_nil]
      have hmod := Nat.mod_add_div n 10
      have hsub : 48 + n % 10 - 48 = n % 10 := by omega
      rw [hsub, pow_succ]
      ring_nf
      omega

/-- `digitsVal` inverts `natDigits`. -/
theorem digitsVal_natDigits (n : Nat) : digitsVal (natDigits n) = some n := by
  have hwf := natDigits_wf n
  rw [digitsVal, if_pos ⟨hwf.1, hwf.2⟩, digits_foldl n 0]
  simp

/-- Parsing inverts rendering: `int(str(i)) = i`. -/
theorem parseDec_intDigits (i : Int) : parseDec (intDigits i) = some i := by
  by_cases h : i < 0
  · rw [intDigits, if_pos h, parseDec, if_pos rfl, digitsVal_natDigits]
    have habs : -((i.natAbs : Nat) : Int) = i := by omega
    simp [habs]
    rw [abs_of_neg h]
    ring
  · rw [intDigits, if_neg h]
    have hwf := natDigits_wf i.natAbs
    match hnd : natDigits i.natAbs with
    | [] => exact absurd hnd hwf.1
    | d :: t =>
      rw [hnd] at hwf
      have hdig : 48 ≤ d ∧ d ≤ 57 := by
        have := hwf.2
        simp only [List.all_cons, Bool.and_eq_true, decide_eq_true_eq] at this
        exact this.1
      rw [parseDec, if_neg (by omega), if_neg (by omega), ← hnd,
        digitsVal_natDigits]
      have habs : ((i.natAbs : Nat) : Int) = i := by omega
      simp [habs]

/-! ## Dependencies (`Dump._read_dependencies`, the write loop in
`Dump._write_entry`) -/

/-- Insert into a strictly ascending list, dropping duplicates. -/
def insortDedup (x : Int) : List Int → List Int
  | [] => [x]
  | y :: t =>
    if x < y then x :: y :: t
    else if x = y then y :: t
    else y :: insortDedup x t

/-- Python `sorted(list(set(values)))`: ascending order, duplicates
removed. -/
def sortedSet (l : List Int) : List Int := l.foldr insortDedup []

/-- The dependency strings of `Dump._write_entry`:
`write_str(str(dependency))` for each dependency in order. -/
def depsBytes (intsize : Nat) (deps : List Int) : List Nat :=
  (deps.map (fun d => writeStr intsize (intDigits d))).flatten

/-- The `while True` loop of `Dump._read_dependencies`, with fuel: read
length-prefixed strings until an empty one, parsing each as an int
(`none` models the `ValueError` for a malformed id; the fuel is
irrelevant as soon as it exceeds the stream length). -/
def readDeps (intsize : Nat) : Nat → List Nat → Option (List Int × List Nat)
  | 0, _ => none
  | fuel + 1, bs =>
    match readBytes intsize bs with
    | ([], rest) => some ([], rest)
    | (v, rest) =>
      match parseDec v with
      | none => none
      | some i =>
        match readDeps intsize fuel rest with
        | none => none
        | some (is, rest') => some (i :: is, rest')

/-- `Dump._read_dependencies`: loop until the empty string, then
`sorted(list(set(values)))`. -/
def readDependencies (intsize : Nat) (bs : List Nat) :
    Option (List Int × List Nat) :=
  match readDeps intsize (bs.length + 1) bs with
  | some (vals, rest) => some (sortedSet vals, rest)
  | none => none

/-- The magnitude loop never lengthens the stream. -/
theorem readMag_rest_length (width : Nat) :
    ∀ bs : List Nat, (readMag width bs).2.length ≤ bs.length := by
  induction width with
  | zero => intro bs; simp [readMag]
  | succ w ih =>
    intro bs
    match bs with
    | [] => simp [readMag]
    | b :: t =>
      simp only [readMag, List.length_cons]
      exact Nat.le_succ_of_le (ih t)

/-- Reading an int from a nonempty stream consumes at least one byte. -/
theorem readInt_rest_length (intsize : Nat) (b : Nat) (t : List Nat) :
    (readInt intsize (b :: t)).2.length < (b :: t).length := by
  simp only [readInt, readByte, List.length_cons]
  exact Nat.lt_succ_of_le (readMag_rest_length intsize t)

/-- `_read_bytes` never lengthens the stream, and consumes at least one
byte whenever it returns a nonempty value. -/
theorem readBytes_rest_length (intsize : Nat) (bs : List Nat) :
    (readBytes intsize bs).2.length ≤ bs.length ∧
      ((readBytes intsize bs).1 ≠ [] →
        (readBytes intsize bs).2.length < bs.length) := by
  match bs with
  | [] =>
    simp [readBytes, readInt, readByte]
  | b :: t =>
    have hint := readInt_rest_length intsize b t
    rw [readBytes]
    match h : readInt intsize (b :: t) with
    | (some len, rest) =>
      rw [h] at hint
      dsimp only
      by_cases hp : 0 < len
      · rw [if_pos hp]
        have hd : (rest.drop len.toNat).length = rest.length - len.toNat :=
          List.length_drop _ _
        simp only [List.length_cons] at hint
        constructor
        · simp only [List.length_cons, hd]
          omega
        · intro _
          simp only [List.length_cons, hd]
          omega
      · rw [if_neg hp]
        exact ⟨le_of_lt hint, fun hne => absurd rfl hne⟩
    | (none, rest) =>
      rw [h] at hint
      dsimp only
      exact ⟨le_of_lt hint, fun hne => absurd rfl hne⟩

/-- The fuel of `readDeps` is irrelevant once it exceeds the stream
length. -/
theorem readDeps_fuel (intsize : Nat) :
    ∀ (k n m : Nat) (bs : List Nat), bs.length ≤ k → bs.length < n →
      bs.length < m → readDeps intsize n bs = readDeps intsize m bs := by
  intro k
  induction k with
  | zero =>
    intro n m bs hk hn hm
    match n, m with
    | n' + 1, m' + 1 =>
      have hbs : bs = [] := List.length_eq_zero.mp (Nat.le_zero.mp hk)
      subst hbs
      rw [readDeps, readDeps]
      simp [readBytes, readInt, readByte]
  | succ k ih =>
    intro n m bs hk hn hm
    match n, m with
    | n' + 1, m' + 1 =>
      rw [readDeps, readDeps]
      match hrb : readBytes intsize bs with
      | ([], rest) => rfl
      | (c :: vt, rest) =>
        have hcons := (readBytes_rest_length intsize bs).2
        rw [hrb] at hcons
        have hlt : rest.length < bs.length := hcons (by simp)
        dsimp only
        have hr : readDeps intsize n' rest = readDeps intsize m' rest := by
          apply ih n' m' rest
          · omega
          · omega
          · omega
        rw [hr]

/-- `magBytes` always writes exactly `width` bytes. -/
theorem magBytes_length (width : Nat) :
    ∀ v, (magBytes width v).length = width := by
  induction width with
  | zero => intro v; rfl
  | succ w ih => intro v; simp [magBytes, ih]

/-- `_write_int` always writes `intsize + 1` bytes. -/
theorem writeInt_length (intsize : Nat) (v : Int) :
    (writeInt intsize v).length = intsize + 1 := by
  simp [writeInt, magBytes_length]

/-- `str(i)` is never the empty string. -/
theorem intDigits_ne_nil (i : Int) : intDigits i ≠ [] := by
  rw [intDigits]
  by_cases h : i < 0
  · rw [if_pos h]
    simp
  · rw [if_neg h]
    exact (natDigits_wf i.natAbs).1

/-- With at least one magnitude byte, integers up to 255 fit. -/
theorem two_pow_8I_big (intsize : Nat) (hI : 1 ≤ intsize) :
    256 ≤ 2 ^ (8 * intsize) := by
  calc (256 : Nat) = 2 ^ 8 := by norm_num
    _ ≤ 2 ^ (8 * intsize) := Nat.pow_le_pow_right (by norm_num) (by omega)

/-- Reading the dependency block written by `_write_entry` recovers the
dependency list (before the sorted-set normalisation). -/
theorem readDeps_encoded (intsize : Nat) (hI : 1 ≤ intsize) :
    ∀ (deps : List Int) (rest : List Nat),
      (∀ d ∈ deps, (intDigits d).length < 2 ^ (8 * intsize)) →
      ∀ fuel,
        (depsBytes intsize deps ++ writeInt intsize (-1) ++ rest).length < fuel →
        readDeps intsize fuel
            (depsBytes intsize deps ++ writeInt intsize (-1) ++ rest)
          = some (deps, rest) := by
  intro deps
  induction deps with
  | nil =>
    intro rest hlen fuel hfuel
    match fuel with
    | f + 1 =>
      rw [readDeps]
      have hterm : readBytes intsize (writeInt intsize (-1) ++ rest)
          = ([], rest) := by
        have hro := readInt_writeInt_roundtrip intsize (-1) rest
          (by have := two_pow_8I_big intsize hI; simp; omega)
        rw [readBytes, hro]
        norm_num
      simp only [depsBytes, List.map_nil, List.flatten_nil, List.nil_append]
        at hterm ⊢
      rw [hterm]
  | cons d ds ih =>
    intro rest hlen fuel hfuel
    match fuel with
    | f + 1 =>
      rw [readDeps]
      have hd := hlen d (List.mem_cons_self d ds)
      have hsplit : depsBytes intsize (d :: ds) ++ writeInt intsize (-1) ++ rest
          = writeStr intsize (intDigits d)
            ++ (depsBytes intsize ds ++ writeInt intsize (-1) ++ rest) := by
        simp [depsBytes, List.append_assoc]
      rw [hsplit]
      have hrb := readBytes_writeStr intsize (intDigits d)
        (depsBytes intsize ds ++ writeInt intsize (-1) ++ rest) hd
      rw [hrb]
      match hnd : intDigits d with
      | [] => exact absurd hnd (intDigits_ne_nil d)
      | c :: vt =>
        dsimp only
        rw [← hnd, parseDec_intDigits d]
        have htail : (depsBytes intsize ds ++ writeInt intsize (-1) ++ rest).length < f := by
          rw [hsplit] at hfuel
          simp only [List.length_append, writeStr, writeInt_length] at hfuel
          simp only [List.length_append, writeInt_length]
          omega
        rw [ih rest (fun x hx => hlen x (List.mem_cons_of_mem d hx)) f htail]

/-- `Dump._read_dependencies` on the block written by `_write_entry`
yields the sorted set of the written ids. -/
theorem readDependencies_encoded (intsize : Nat) (hI : 1 ≤ intsize)
    (deps : List Int) (rest : List Nat)
    (hlen : ∀ d ∈ deps, (intDigits d).length < 2 ^ (8 * intsize)) :
    readDependencies intsize
        (depsBytes intsize deps ++ writeInt intsize (-1) ++ rest)
      = some (sortedSet deps, rest) := by
  rw [readDependencies, readDeps_encoded intsize hI deps rest hlen _
    (Nat.lt_succ_self _)]

/-! ## Timestamps (`Dump._write_timestamp` / `Dump._read_timestamp`) -/

/-- The seven timestamp components; the DST flag is written as 0 for the
naive datetimes the library produces and discarded on read. -/
structure PgTimestamp where
  second : Int
  minute : Int
  hour : Int
  day : Int
  month : Int
  year : Int
deriving DecidableEq, Repr

/-- `Dump._write_timestamp`: seven ints, month stored zero-based, year
stored as `year - 1900`, DST flag 0 (`value.dst()` of a naive datetime
is `None`). -/
def writeTimestamp (intsize : Nat) (t : PgTimestamp) : List Nat :=
  writeInt intsize t.second ++ writeInt intsize t.minute
    ++ writeInt intsize t.hour ++ writeInt intsize t.day
    ++ writeInt intsize (t.month - 1) ++ writeInt intsize (t.year - 1900)
    ++ writeInt intsize 0

/-- The range checks of the `datetime.datetime` constructor (the
day-of-month bound is modelled as 31 independent of the month; the
calendar-exact bound only affects which corrupt archives are rejected). -/
def validTimestamp (t : PgTimestamp) : Bool :=
  decide (1 ≤ t.year ∧ t.year ≤ 9999 ∧ 1 ≤ t.month ∧ t.month ≤ 12
    ∧ 1 ≤ t.day ∧ t.day ≤ 31 ∧ 0 ≤ t.hour ∧ t.hour ≤ 23
    ∧ 0 ≤ t.minute ∧ t.minute ≤ 59 ∧ 0 ≤ t.second ∧ t.second ≤ 59)

/-- `Dump._read_timestamp`: seven ints; month and year have `or 0`
defaults, the other components raise (`none`) at end of stream via the
`datetime` constructor; the DST flag is read and discarded. -/
def readTimestamp (intsize : Nat) (bs : List Nat) :
    Option (PgTimestamp × List Nat) :=
  match readInt intsize bs with
  | (none, _) => none
  | (some second, r1) =>
    match readInt intsize r1 with
    | (none, _) => none
    | (some minute, r2) =>
      match readInt intsize r2 with
      | (none, _) => none
      | (some hour, r3) =>
        match readInt intsize r3 with
        | (none, _) => none
        | (some day, r4) =>
          let m := readInt intsize r4
          let y := readInt intsize m.2
          let d := readInt intsize y.2
          let t : PgTimestamp :=
            { second := second, minute := minute, hour := hour, day := day,
              month := m.1.getD 0 + 1, year := y.1.getD 0 + 1900 }
          if validTimestamp t then some (t, d.2) else none

/-- `_read_timestamp` inverts `_write_timestamp` for valid timestamps
when the integer width is at least two bytes. -/
theorem readTimestamp_writeTimestamp (intsize : Nat) (hI : 2 ≤ intsize)
    (t : PgTimestamp) (rest : List Nat) (hv : validTimestamp t = true) :
    readTimestamp intsize (writeTimestamp intsize t ++ rest)
      = some (t, rest) := by
  have hbig : (65536 : Nat) ≤ 2 ^ (8 * intsize) := by
    calc (65536 : Nat) = 2 ^ 16 := by norm_num
      _ ≤ 2 ^ (8 * intsize) := Nat.pow_le_pow_right (by norm_num) (by omega)
  rw [validTimestamp, decide_eq_true_eq] at hv
  obtain ⟨h1, h2, h3, h4, h5, h6, h7, h8, h9, h10, h11, h12⟩ := hv
  have r1 := readInt_writeInt_roundtrip intsize t.second
    (writeInt intsize t.minute ++ writeInt intsize t.hour
      ++ writeInt intsize t.day ++ writeInt intsize (t.month - 1)
      ++ writeInt intsize (t.year - 1900) ++ writeInt intsize 0 ++ rest)
    (by omega)
  have r2 := readInt_writeInt_roundtrip intsize t.minute
    (writeInt intsize t.hour ++ writeInt intsize t.day
      ++ writeInt intsize (t.month - 1) ++ writeInt intsize (t.year - 1900)
      ++ writeInt intsize 0 ++ rest) (by omega)
  have r3 := readInt_writeInt_roundtrip intsize t.hour
    (writeInt intsize t.day ++ writeInt intsize (t.month - 1)
      ++ writeInt intsize (t.year - 1900) ++ writeInt intsize 0 ++ rest)
    (by omega)
  have r4 := readInt_writeInt_roundtrip intsize t.day
    (writeInt intsize (t.month - 1) ++ writeInt intsize (t.year - 1900)
      ++ writeInt intsize 0 ++ rest) (by omega)
  have r5 := readInt_writeInt_roundtrip intsize (t.month - 1)
    (writeInt intsize (t.year - 1900) ++ writeInt intsize 0 ++ rest)
    (by omega)
  have r6 := readInt_writeInt_roundtrip intsize (t.year - 1900)
    (writeInt intsize 0 ++ rest) (by omega)
  have r7 := readInt_writeInt_roundtrip intsize 0 rest (by omega)
  rw [readTimestamp, writeTimestamp]
  simp only [List.append_assoc] at r1 r2 r3 r4 r5 r6 r7 ⊢
  rw [r1]
  dsimp only
  rw [r2]
  dsimp only
  rw [r3]
  dsimp only
  rw [r4]
  dsimp only
  rw [r5]
  dsimp only
  rw [r6]
  dsimp only
  rw [r7]
  dsimp only
  have hmonth : t.month - 1 + 1 = t.month := by omega
  have hyear : t.year - 1900 + 1900 = t.year := by omega
  simp only [Option.getD_some, hmonth, hyear]
  rw [if_pos]
  rw [validTimestamp, decide_eq_true_eq]
  exact ⟨h1, h2, h3, h4, h5, h6, h7, h8, h9, h10, h11, h12⟩

/-! ## Entry serialization (`Dump._write_entry` / `Dump._read_entry`) -/

/-- `Dump._write_entry`: the fixed field sequence.  The section is
serialized as `SECTIONS.index(entry.section) + 1`; an unknown `desc`
would raise (`none`).  `table_oid or '0'` and `oid or '0'` replace empty
strings by `"0"`. -/
def writeEntry (intsize offsize : Nat) (e : Entry) : Option (List Nat) := do
  let sec ← e.sectionName
  let idx ← List.findIdx? (fun x => x = sec) SECTIONS
  pure (writeInt intsize e.dump_id
    ++ writeInt intsize (if e.had_dumper then 1 else 0)
    ++ writeStr intsize (if e.table_oid = [] then strB "0" else e.table_oid)
    ++ writeStr intsize (if e.oid = [] then strB "0" else e.oid)
    ++ writeStr intsize e.tag
    ++ writeStr intsize e.desc
    ++ writeInt intsize ((idx : Int) + 1)
    ++ writeStr intsize e.defn
    ++ writeStr intsize e.drop_stmt
    ++ writeStr intsize e.copy_stmt
    ++ writeStr intsize e.nspace
    ++ writeStr intsize e.tablespace
    ++ writeStr intsize e.owner
    ++ writeStr intsize (if e.with_oids then strB "true" else strB "false")
    ++ depsBytes intsize e.dependencies
    ++ writeInt intsize (-1)
    ++ writeOffset offsize e.offset e.data_state)

/-- Python `bool(...)` of an optional int. -/
def boolOfReadInt (o : Option Int) : Bool :=
  match o with
  | some v => decide (v ≠ 0)
  | none => false

/-- `Dump._read_entry`: the same field sequence back.  The serialized
section integer is read and discarded (the property recomputes the
section from `desc`).  A stream exhausted before the leading dump id, or
a malformed dependency id, yields `none` (where the source would build a
degenerate entry or raise). -/
def readEntry (intsize offsize : Nat) (bs : List Nat) :
    Option (Entry × List Nat) :=
  match readInt intsize bs with
  | (none, _) => none
  | (some dump_id, r1) =>
    let hd := readInt intsize r1
    let toid := readBytes intsize hd.2
    let oid := readBytes intsize toid.2
    let tag := readBytes intsize oid.2
    let desc := readBytes intsize tag.2
    let sec := readInt intsize desc.2
    let defn := readBytes intsize sec.2
    let dstmt := readBytes intsize defn.2
    let cstmt := readBytes intsize dstmt.2
    let nsp := readBytes intsize cstmt.2
    let tbs := readBytes intsize nsp.2
    let own := readBytes intsize tbs.2
    let woids := readBytes intsize own.2
    match readDependencies intsize woids.2 with
    | none => none
    | some (deps, r15) =>
      let off := readOffset offsize r15
      some ({ dump_id := dump_id,
              had_dumper := boolOfReadInt hd.1,
              table_oid := toid.1,
              oid := oid.1,
              tag := tag.1,
              desc := desc.1,
              defn := defn.1,
              drop_stmt := dstmt.1,
              copy_stmt := cstmt.1,
              nspace := nsp.1,
              tablespace := tbs.1,
              owner := own.1,
              with_oids := decide (woids.1 = strB "true"),
              dependencies := deps,
              data_state := off.1,
              offset := off.2.1 }, off.2.2)

/-- The entry a save/load round trip produces: empty OIDs become `"0"`
and the dependency list is replaced by its sorted set. -/
def normEntry (e : Entry) : Entry :=
  { e with table_oid := if e.table_oid = [] then strB "0" else e.table_oid,
           oid := if e.oid = [] then strB "0" else e.oid,
           dependencies := sortedSet e.dependencies }

/-- The conditions under which an entry serializes and round-trips: a
known descriptor, fields that fit the integer width, a one-byte data
state and an offset that fits the offset width. -/
def EntryWf (intsize offsize : Nat) (e : Entry) : Prop :=
  (sectionForDesc e.desc).isSome = true
  ∧ e.dump_id.natAbs < 2 ^ (8 * intsize)
  ∧ e.table_oid.length < 2 ^ (8 * intsize)
  ∧ e.oid.length < 2 ^ (8 * intsize)
  ∧ e.tag.length < 2 ^ (8 * intsize)
  ∧ e.desc.length < 2 ^ (8 * intsize)
  ∧ e.defn.length < 2 ^ (8 * intsize)
  ∧ e.drop_stmt.length < 2 ^ (8 * intsize)
  ∧ e.copy_stmt.length < 2 ^ (8 * intsize)
  ∧ e.nspace.length < 2 ^ (8 * intsize)
  ∧ e.tablespace.length < 2 ^ (8 * intsize)
  ∧ e.owner.length < 2 ^ (8 * intsize)
  ∧ (∀ d ∈ e.dependencies, (intDigits d).length < 2 ^ (8 * intsize))
  ∧ e.data_state < 256
  ∧ e.offset < 256 ^ offsize

/-- Every value of the section mapping is one of the four sections. -/
theorem sectionForDesc_mem (desc sec : Str) (h : sectionForDesc desc = some sec) :
    sec ∈ SECTIONS := by
  unfold sectionForDesc at h
  match hf : SECTION_MAPPING.find? (fun p => p.1 = desc) with
  | none => rw [hf] at h; simp at h
  | some p =>
    rw [hf] at h
    simp only [Option.map_some'] at h
    have hm := List.mem_of_find?_eq_some hf
    have hall : ∀ q ∈ SECTION_MAPPING, q.2 ∈ SECTIONS := by decide
    rw [← Option.some.inj h]
    exact hall p hm

/-- Position of a section in `SECTIONS`. -/
theorem sections_findIdx (s : Str) (hs : s ∈ SECTIONS) :
    ∃ idx, List.findIdx? (fun x => x = s) SECTIONS = some idx ∧ idx < 4 := by
  fin_cases hs
  · exact ⟨0, by decide, by norm_num⟩
  · exact ⟨1, by decide, by norm_num⟩
  · exact ⟨2, by decide, by norm_num⟩
  · exact ⟨3, by decide, by norm_num⟩

/-- `readDependencies_encoded` with the appends right-associated. -/
theorem readDependencies_encoded_assoc (intsize : Nat) (hI : 1 ≤ intsize)
    (deps : List Int) (rest : List Nat)
    (hlen : ∀ d ∈ deps, (intDigits d).length < 2 ^ (8 * intsize)) :
    readDependencies intsize
        (depsBytes intsize deps ++ (writeInt intsize (-1) ++ rest))
      = some (sortedSet deps, rest) := by
  rw [← List.append_assoc]
  exact readDependencies_encoded intsize hI deps rest hlen

/-- The field bytes of `_write_entry` with an arbitrary integer
`secInt` in the section slot (the writer stores
`SECTIONS.index(section) + 1` there; the reader discards it). -/
def entryFieldBytes (intsize offsize : Nat) (e : Entry) (secInt : Int) :
    List Nat :=
  writeInt intsize e.dump_id
    ++ writeInt intsize (if e.had_dumper then 1 else 0)
    ++ writeStr intsize (if e.table_oid = [] then strB "0" else e.table_oid)
    ++ writeStr intsize (if e.oid = [] then strB "0" else e.oid)
    ++ writeStr intsize e.tag
    ++ writeStr intsize e.desc
    ++ writeInt intsize secInt
    ++ writeStr intsize e.defn
    ++ writeStr intsize e.drop_stmt
    ++ writeStr intsize e.copy_stmt
    ++ writeStr intsize e.nspace
    ++ writeStr intsize e.tablespace
    ++ writeStr intsize e.owner
    ++ writeStr intsize (if e.with_oids then strB "true" else strB "false")
    ++ depsBytes intsize e.dependencies
    ++ writeInt intsize (-1)
    ++ writeOffset offsize e.offset e.data_state

/-- `_read_entry` recovers the entry from its field bytes whatever
integer sits in the section slot: the serialized section value is
discarded and never reaches the entry. -/
theorem readEntry_entryFieldBytes (intsize offsize : Nat) (hI : 1 ≤ intsize)
    (e : Entry) (secInt : Int) (hsi : secInt.natAbs < 2 ^ (8 * intsize))
    (rest : List Nat) (h : EntryWf intsize offsize e) :
    readEntry intsize offsize (entryFieldBytes intsize offsize e secInt ++ rest)
      = some (normEntry e, rest) := by
  obtain ⟨hdesc, hdump, htoid, hoid, htag, hdesclen, hdefn, hdrop, hcopy,
    hnsp, htbs, hown, hdeps, hds, hoff⟩ := h
  have h256 := two_pow_8I_big intsize hI
  have hWtoid : (if e.table_oid = [] then strB "0" else e.table_oid).length
      < 2 ^ (8 * intsize) := by
    by_cases hc : e.table_oid = [] <;> simp [hc, strB] <;> omega
  have hWoid : (if e.oid = [] then strB "0" else e.oid).length
      < 2 ^ (8 * intsize) := by
    by_cases hc : e.oid = [] <;> simp [hc, strB] <;> omega
  have hWhad : (if e.had_dumper then (1 : Int) else 0).natAbs
      < 2 ^ (8 * intsize) := by
    cases e.had_dumper <;> simp
    all_goals omega
  have hWwo : (if e.with_oids then strB "true" else strB "false").length
      < 2 ^ (8 * intsize) := by
    cases e.with_oids <;> simp [strB] <;> omega
  have r1 := readInt_writeInt_roundtrip intsize e.dump_id
    (writeInt intsize (if e.had_dumper = true then 1 else 0) ++ (writeStr intsize (if e.table_oid = [] then strB "0" else e.table_oid) ++ (writeStr intsize (if e.oid = [] then strB "0" else e.oid) ++ (writeStr intsize e.tag ++ (writeStr intsize e.desc ++ (writeInt intsize secInt ++ (writeStr intsize e.defn ++ (writeStr intsize e.drop_stmt ++ (writeStr intsize e.copy_stmt ++ (writeStr intsize e.nspace ++ (writeStr intsize e.tablespace ++ (writeStr intsize e.owner ++ (writeStr intsize (if e.with_oids = true then strB "true" else strB "false") ++ (depsBytes intsize e.dependencies ++ (writeInt intsize (-1) ++ (writeOffset offsize e.offset e.data_state ++ rest)))))))))))))))) hdump
  have r2 := readInt_writeInt_roundtrip intsize (if e.had_dumper = true then (1 : Int) else 0)
    (writeStr intsize (if e.table_oid = [] then strB "0" else e.table_oid) ++ (writeStr intsize (if e.oid = [] then strB "0" else e.oid) ++ (writeStr intsize e.tag ++ (writeStr intsize e.desc ++ (writeInt intsize secInt ++ (writeStr intsize e.defn ++ (writeStr intsize e.drop_stmt ++ (writeStr intsize e.copy_stmt ++ (writeStr intsize e.nspace ++ (writeStr intsize e.tablespace ++ (writeStr intsize e.owner ++ (writeStr intsize (if e.with_oids = true then strB "true" else strB "false") ++ (depsBytes intsize e.dependencies ++ (writeInt intsize (-1) ++ (writeOffset offsize e.offset e.data_state ++ rest))))))))))))))) hWhad
  have r3 := readBytes_writeStr intsize (if e.table_oid = [] then strB "0" else e.table_oid)
    (writeStr intsize (if e.oid = [] then strB "0" else e.oid) ++ (writeStr intsize e.tag ++ (writeStr intsize e.desc ++ (writeInt intsize secInt ++ (writeStr intsize e.defn ++ (writeStr intsize e.drop_stmt ++ (writeStr intsize e.copy_stmt ++ (writeStr intsize e.nspace ++ (writeStr intsize e.tablespace ++ (writeStr intsize e.owner ++ (writeStr intsize (if e.with_oids = true then strB "true" else strB "false") ++ (depsBytes intsize e.dependencies ++ (writeInt intsize (-1) ++ (writeOffset offsize e.offset e.data_state ++ rest)))))))))))))) hWtoid
  have r4 := readBytes_writeStr intsize (if e.oid = [] then strB "0" else e.oid)
    (writeStr intsize e.tag ++ (writeStr intsize e.desc ++ (writeInt intsize secInt ++ (writeStr intsize e.defn ++ (writeStr intsize e.drop_stmt ++ (writeStr intsize e.copy_stmt ++ (writeStr intsize e.nspace ++ (writeStr intsize e.tablespace ++ (writeStr intsize e.owner ++ (writeStr intsize (if e.with_oids = true then strB "true" else strB "false") ++ (depsBytes intsize e.dependencies ++ (writeInt intsize (-1) ++ (writeOffset offsize e.offset e.data_state ++ rest))))))))))))) hWoid
  have r5 := readBytes_writeStr intsize e.tag
    (writeStr intsize e.desc ++ (writeInt intsize secInt ++ (writeStr intsize e.defn ++ (writeStr intsize e.drop_stmt ++ (writeStr intsize e.copy_stmt ++ (writeStr intsize e.nspace ++ (writeStr intsize e.tablespace ++ (writeStr intsize e.owner ++ (writeStr intsize (if e.with_oids = true then strB "true" else strB "false") ++ (depsBytes intsize e.dependencies ++ (writeInt intsize (-1) ++ (writeOffset offsize e.offset e.data_state ++ rest)))))))))))) htag
  have r6 := readBytes_writeStr intsize e.desc
    (writeInt intsize secInt ++ (writeStr intsize e.defn ++ (writeStr intsize e.drop_stmt ++ (writeStr intsize e.copy_stmt ++ (writeStr intsize e.nspace ++ (writeStr intsize e.tablespace ++ (writeStr intsize e.owner ++ (writeStr intsize (if e.with_oids = true then strB "true" else strB "false") ++ (depsBytes intsize e.dependencies ++ (writeInt intsize (-1) ++ (writeOffset offsize e.offset e.data_state ++ rest))))))))))) hdesclen
  have r7 := readInt_writeInt_roundtrip intsize secInt
    (writeStr intsize e.defn ++ (writeStr intsize e.drop_stmt ++ (writeStr intsize e.copy_stmt ++ (writeStr intsize e.nspace ++ (writeStr intsize e.tablespace ++ (writeStr intsize e.owner ++ (writeStr intsize (if e.with_oids = true then strB "true" else strB "false") ++ (depsBytes intsize e.dependencies ++ (writeInt intsize (-1) ++ (writeOffset offsize e.offset e.data_state ++ rest)))))))))) hsi
  have r8 := readBytes_writeStr intsize e.defn
    (writeStr intsize e.drop_stmt ++ (writeStr intsize e.copy_stmt ++ (writeStr intsize e.nspace ++ (writeStr intsize e.tablespace ++ (writeStr intsize e.owner ++ (writeStr intsize (if e.with_oids = true then strB "true" else strB "false") ++ (depsBytes intsize e.dependencies ++ (writeInt intsize (-1) ++ (writeOffset offsize e.offset e.data_state ++ rest))))))))) hdefn
  have r9 := readBytes_writeStr intsize e.drop_stmt
    (writeStr intsize e.copy_stmt ++ (writeStr intsize e.nspace ++ (writeStr intsize e.tablespace ++ (writeStr intsize e.owner ++ (writeStr intsize (if e.with_oids = true then strB "true" else strB "false") ++ (depsBytes intsize e.dependencies ++ (writeInt intsize (-1) ++ (writeOffset offsize e.offset e.data_state ++ rest)))))))) hdrop
  have r10 := readBytes_writeStr intsize e.copy_stmt
    (writeStr intsize e.nspace ++ (writeStr intsize e.tablespace ++ (writeStr intsize e.owner ++ (writeStr intsize (if e.with_oids = true then strB "true" else strB "false") ++ (depsBytes intsize e.dependencies ++ (writeInt intsize (-1) ++ (writeOffset offsize e.offset e.data_state ++ rest))))))) hcopy
  have r11 := readBytes_writeStr intsize e.nspace
    (writeStr intsize e.tablespace ++ (writeStr intsize e.owner ++ (writeStr intsize (if e.with_oids = true then strB "true" else strB "false") ++ (depsBytes intsize e.dependencies ++ (writeInt intsize (-1) ++ (writeOffset offsize e.offset e.data_state ++ rest)))))) hnsp
  have r12 := readBytes_writeStr intsize e.tablespace
    (writeStr intsize e.owner ++ (writeStr intsize (if e.with_oids = true then strB "true" else strB "false") ++ (depsBytes intsize e.dependencies ++ (writeInt intsize (-1) ++ (writeOffset offsize e.offset e.data_state ++ rest))))) htbs
  have r13 := readBytes_writeStr intsize e.owner
    (writeStr intsize (if e.with_oids = true then strB "true" else strB "false") ++ (depsBytes intsize e.dependencies ++ (writeInt intsize (-1) ++ (writeOffset offsize e.offset e.data_state ++ rest)))) hown
  have r14 := readBytes_writeStr intsize (if e.with_oids = true then strB "true" else strB "false")
    (depsBytes intsize e.dependencies ++ (writeInt intsize (-1) ++ (writeOffset offsize e.offset e.data_state ++ rest))) hWwo
  have r15 := readDependencies_encoded_assoc intsize hI e.dependencies
    (writeOffset offsize e.offset e.data_state ++ rest) hdeps
  have r16 := readOffset_writeOffset offsize e.offset e.data_state rest hds hoff
  simp only [entryFieldBytes, List.append_assoc] at r1 r2 r3 r4 r5 r6 r7 r8 r9 r10 r11 r12 r13 r14 r15 r16 ⊢
  simp only [readEntry]
  rw [r1]
  dsimp only
  rw [r2]
  dsimp only
  rw [r3]
  dsimp only
  rw [r4]
  dsimp only
  rw [r5]
  dsimp only
  rw [r6]
  dsimp only
  rw [r7]
  dsimp only
  rw [r8]
  dsimp only
  rw [r9]
  dsimp only
  rw [r10]
  dsimp only
  rw [r11]
  dsimp only
  rw [r12]
  dsimp only
  rw [r13]
  dsimp only
  rw [r14]
  dsimp only
  rw [r15]
  dsimp only
  rw [r16]
  dsimp only
  simp only [normEntry, boolOfReadInt]
  cases hhd : e.had_dumper <;> cases hwo : e.with_oids <;>
    simp [Entry.mk.injEq]
  all_goals decide

/-- `_write_entry` serializes a well-formed entry to its field bytes with
`SECTIONS.index(section) + 1` in the section slot. -/
theorem writeEntry_eq_fieldBytes (intsize offsize : Nat) (e : Entry)
    (sec : Str) (idx : Nat) (hsec : sectionForDesc e.desc = some sec)
    (hidx : List.findIdx? (fun x => x = sec) SECTIONS = some idx) :
    writeEntry intsize offsize e
      = some (entryFieldBytes intsize offsize e ((idx : Int) + 1)) := by
  simp only [writeEntry, Entry.sectionName, hsec, hidx, Option.bind_eq_bind,
    Option.some_bind, entryFieldBytes]
  rfl

/-- `_read_entry` inverts `_write_entry` up to the `or '0'` OID defaults
and the sorted-set normalisation of the dependency list. -/
theorem readEntry_writeEntry (intsize offsize : Nat) (hI : 1 ≤ intsize)
    (e : Entry) (rest : List Nat) (h : EntryWf intsize offsize e) :
    ∃ bytes, writeEntry intsize offsize e = some bytes ∧
      readEntry intsize offsize (bytes ++ rest) = some (normEntry e, rest) := by
  have h256 := two_pow_8I_big intsize hI
  obtain ⟨sec, hsec⟩ := Option.isSome_iff_exists.mp h.1
  have hsecmem := sectionForDesc_mem e.desc sec hsec
  obtain ⟨idx, hidx, hidxlt⟩ := sections_findIdx sec hsecmem
  refine ⟨_, writeEntry_eq_fieldBytes intsize offsize e sec idx hsec hidx, ?_⟩
  exact readEntry_entryFieldBytes intsize offsize hI e ((idx : Int) + 1)
    (by omega) rest h

/-- C4: for every entry, reading `entry.section` returns
`SECTION_MAPPING[entry.desc]` — the section is a total pure function of
the `desc` field.  In particular the section integer serialized in the
archive never reaches the entry: parsing the same field bytes with any
two integers in the section slot yields identical entries. -/
theorem entry_section_from_desc :
    (∀ e : Entry, e.sectionName = sectionForDesc e.desc) ∧
    (∀ (intsize offsize : Nat) (e : Entry) (s1 s2 : Int) (rest : List Nat),
      1 ≤ intsize → s1.natAbs < 2 ^ (8 * intsize) →
      s2.natAbs < 2 ^ (8 * intsize) → EntryWf intsize offsize e →
      readEntry intsize offsize
          (entryFieldBytes intsize offsize e s1 ++ rest)
        = readEntry intsize offsize
            (entryFieldBytes intsize offsize e s2 ++ rest)) := by
  refine ⟨fun e => rfl, ?_⟩
  intro intsize offsize e s1 s2 rest hI h1 h2 hwf
  rw [readEntry_entryFieldBytes intsize offsize hI e s1 h1 rest hwf,
    readEntry_entryFieldBytes intsize offsize hI e s2 h2 rest hwf]

/-- Witness for `entry_section_from_desc` at a concrete entry with two
different section integers. -/
theorem entry_section_from_desc_witness :
    readEntry 4 8 (entryFieldBytes 4 8 { dump_id := 1, desc := ENCODING } 2 ++ [9])
      = readEntry 4 8 (entryFieldBytes 4 8 { dump_id := 1, desc := ENCODING } 7 ++ [9]) :=
  entry_section_from_desc.2 4 8 { dump_id := 1, desc := ENCODING } 2 7 [9]
    (by norm_num) (by norm_num) (by norm_num) (by constructor <;> decide)

/-! ## Entry authoring (`Dump.add_entry`) -/

/-- The distinct `ValueError`s of `add_entry`, told apart by message. -/
inductive AddEntryError
  | invalidDesc
  | invalidDumpId
  | dumpIdUsed
  | unknownDependency
  | nextIdUnavailable
deriving DecidableEq, Repr

/-- `Dump._next_dump_id`: `max(e.dump_id for e in entries) + 1`; `none`
models the `ValueError` of `max` on an empty sequence. -/
def nextDumpId (entries : List Entry) : Option Int :=
  match entries.map (fun e => e.dump_id) with
  | [] => none
  | x :: xs => some (xs.foldl max x + 1)

/-- `Dump.add_entry`: validates the descriptor, an explicit dump id and
every listed dependency, then appends the new entry.  Checks happen in
source order: unknown `desc`, `dump_id < 1`, a used dump id, then the
dependency loop.  On an error the entry list is untouched (only the
`ok` branch carries the extended list). -/
def add_entry (entries : List Entry) (desc nspace tag owner defn
    drop_stmt copy_stmt : Str) (dependencies : Option (List Int))
    (tablespace : Str) (dump_id : Option Int) :
    Except AddEntryError (List Entry × Entry) :=
  if (sectionForDesc desc).isNone then Except.error AddEntryError.invalidDesc
  else
    let dumpIds := entries.map (fun e => e.dump_id)
    let mk : Int → Entry := fun d =>
      { dump_id := d, had_dumper := false, table_oid := [], oid := [],
        tag := tag, desc := desc, defn := defn, drop_stmt := drop_stmt,
        copy_stmt := copy_stmt, nspace := nspace, tablespace := tablespace,
        owner := owner, with_oids := false,
        dependencies := dependencies.getD [],
        data_state := K_OFFSET_NO_DATA, offset := 0 }
    match dump_id with
    | some d =>
      if d < 1 then Except.error AddEntryError.invalidDumpId
      else if d ∈ dumpIds then Except.error AddEntryError.dumpIdUsed
      else if ¬ ((dependencies.getD []).all fun x => decide (x ∈ dumpIds)) then
        Except.error AddEntryError.unknownDependency
      else Except.ok (entries ++ [mk d], mk d)
    | none =>
      if ¬ ((dependencies.getD []).all fun x => decide (x ∈ dumpIds)) then
        Except.error AddEntryError.unknownDependency
      else
        match nextDumpId entries with
        | none => Except.error AddEntryError.nextIdUnavailable
        | some d => Except.ok (entries ++ [mk d], mk d)

/-- C5: with a valid `desc` and an unused positive explicit `dump_id`,
`add_entry` raises the unknown-dependency error exactly when some listed
dependency id is not the dump id of an entry present at call time; and
whenever it succeeds the only change is the appended entry (on an error
the entry list is untouched). -/
theorem add_entry_unknown_dependency (entries : List Entry)
    (desc nspace tag owner defn drop_stmt copy_stmt tablespace : Str)
    (deps : List Int) (d : Int)
    (hdesc : (sectionForDesc desc).isSome = true)
    (hpos : 1 ≤ d) (hunused : d ∉ entries.map (fun e => e.dump_id)) :
    (add_entry entries desc nspace tag owner defn drop_stmt copy_stmt
        (some deps) tablespace (some d)
        = Except.error AddEntryError.unknownDependency
      ↔ ∃ x ∈ deps, x ∉ entries.map (fun e => e.dump_id)) ∧
    (∀ res, add_entry entries desc nspace tag owner defn drop_stmt copy_stmt
        (some deps) tablespace (some d) = Except.ok res →
      res.1 = entries ++ [res.2]) := by
  have hnone : (sectionForDesc desc).isNone = false := by
    cases h : sectionForDesc desc <;> simp_all
  rw [add_entry]
  simp only [hnone, Bool.false_eq_true, if_false]
  rw [if_neg (by omega), if_neg hunused]
  by_cases hall : (deps.all fun x => decide (x ∈ entries.map fun e => e.dump_id)) = true
  · simp only [Option.getD_some] at *
    rw [if_neg (not_not_intro hall)]
    constructor
    · constructor
      · intro hcontra
        exact absurd hcontra (by simp)
      · intro ⟨x, hx, hnx⟩
        rw [List.all_eq_true] at hall
        exact absurd (of_decide_eq_true (hall x hx)) hnx
    · intro res hres
      have := Except.ok.inj hres
      rw [← this]
  · simp only [Option.getD_some] at *
    rw [if_pos hall]
    constructor
    · constructor
      · intro _
        rw [List.all_eq_true] at hall
        push_neg at hall
        obtain ⟨x, hx, hnx⟩ := hall
        exact ⟨x, hx, by simpa using hnx⟩
      · intro _
        rfl
    · intro res hres
      cases hres

/-- Witness for `add_entry_unknown_dependency`: adding a `TABLE` entry
with dependency 7 to an archive whose only dump id is 1 raises the
unknown-dependency error. -/
theorem add_entry_unknown_dependency_witness :
    add_entry ([{ dump_id := 1, desc := ENCODING }] : List Entry) TABLE
        [] [] [] [] [] [] (some [7]) [] (some 4)
        = Except.error AddEntryError.unknownDependency
      ↔ ∃ x ∈ [(7 : Int)], x ∉
          List.map (fun e => e.dump_id)
            ([{ dump_id := 1, desc := ENCODING }] : List Entry) :=
  (add_entry_unknown_dependency ([{ dump_id := 1, desc := ENCODING }] : List Entry)
    TABLE [] [] [] [] [] [] [] [(7 : Int)] 4 (by decide) (by norm_num)
    (by decide)).1

/-! ## The toposort library and the entry write order
(`Dump._write_entries` / `Dump._write_section`) -/

/-- Ascending sort of a set of ids, `sorted(set(...))`. -/
def sortInts (l : List Int) : List Int := sortedSet l

/-- Python dict update: replace the value in place or append a new key. -/
def dictInsert (k : Int) (v : List Int) :
    List (Int × List Int) → List (Int × List Int)
  | [] => [(k, v)]
  | (k', v') :: t =>
    if k' = k then (k, v) :: t else (k', v') :: dictInsert k v t

/-- `saved.add(x)` on the set of already-written dump ids. -/
def savedAdd (x : Int) (s : List Int) : List Int :=
  if x ∈ s then s else s ++ [x]

/-- `Dump.get_entry`: linear lookup of the first entry with the id. -/
def get_entry (entries : List Entry) (d : Int) : Option Entry :=
  entries.find? (fun e => e.dump_id = d)

/-- The `while True` rounds of `toposort.toposort`: collect the items
with no remaining dependencies, sort them (the `sort=True` flattening),
remove them from the graph and recurse; an exhausted graph with no ready
item is the cyclic-dependency `ValueError` (`none`).  The fuel is
irrelevant once it exceeds the number of keys. -/
def toposortRounds (intfuel : Nat) (g : List (Int × List Int)) :
    Option (List (List Int)) :=
  match intfuel with
  | 0 => none
  | fuel + 1 =>
    let ordered := (g.filter (fun p => p.2 = [])).map (fun p => p.1)
    if ordered = [] then
      if g = [] then some [] else none
    else
      let g' := (g.filter (fun p => p.1 ∉ ordered)).map
        (fun p => (p.1, p.2.filter (fun x => x ∉ ordered)))
      match toposortRounds fuel g' with
      | none => none
      | some bs => some (sortInts ordered :: bs)

/-- `toposort.toposort_flatten(data, sort=True)`: self-dependencies are
discarded, dependency items that are not keys are added with no
dependencies of their own, then the sorted rounds are concatenated. -/
def toposortFlatten (data : List (Int × List Int)) : Option (List Int) :=
  if data = [] then some []
  else
    let g0 := data.map (fun p => (p.1, p.2.filter (fun x => x ≠ p.1)))
    let keys := g0.map (fun p => p.1)
    let extras := (g0.map (fun p => p.2)).flatten.filter (fun x => x ∉ keys)
    let g1 := extras.foldl (fun g x => dictInsert x [] g) g0
    match toposortRounds (g1.length + 1) g1 with
    | none => none
    | some batches => some batches.flatten

/-- The dependency graph of one section:
`{e.dump_id: set(e.dependencies) for e in entries if e.section == section}`
(a dict comprehension: insertion order, later duplicates overwrite). -/
def buildGraph (entries : List Entry) (sec : Str) : List (Int × List Int) :=
  entries.foldl
    (fun g e =>
      if e.sectionName = some sec then dictInsert e.dump_id e.dependencies g
      else g)
    []

/-- `Dump._write_section`: first every entry whose `desc` is in the
preferred list (in list order, regardless of the saved set), then the
flattened topological order of the section's dependency graph, writing
each id not yet saved via `get_entry` (`none` when an id resolves to no
entry, where the source would crash). -/
def write_section (entries : List Entry) (sec : Str) (objTypes : List Str)
    (st : List Entry × List Int) : Option (List Entry × List Int) :=
  let st1 := objTypes.foldl
    (fun acc ot =>
      (entries.filter (fun e => e.desc = ot)).foldl
        (fun acc e => (acc.1 ++ [e], savedAdd e.dump_id acc.2)) acc)
    st
  match toposortFlatten (buildGraph entries sec) with
  | none => none
  | some order =>
    order.foldlM
      (fun acc d =>
        if d ∈ acc.2 then some acc
        else
          match get_entry entries d with
          | none => none
          | some e => some (acc.1 ++ [e], savedAdd d acc.2))
      st1

/-- The preferred descriptor list of the Pre-Data section
(`Dump._write_entries`). -/
def PREFERRED_PRE_DATA : List Str :=
  [SCHEMA, EXTENSION, AGGREGATE, OPERATOR, OPERATOR_CLASS, CAST, COLLATION,
   CONVERSION, PROCEDURAL_LANGUAGE, FOREIGN_DATA_WRAPPER, FOREIGN_SERVER,
   SERVER, DOMAIN, TYPE, SHELL_TYPE]

/-- The preferred descriptor list of the Post-Data section. -/
def PREFERRED_POST_DATA : List Str :=
  [CHECK_CONSTRAINT, CONSTRAINT, INDEX]

/-- The order in which `Dump._write_entries` writes the entries: the
first three entries of the list, then the four section phases. -/
def writeEntriesOrder (entries : List Entry) : Option (List Entry) := do
  let st0 := (entries.take 3).foldl
    (fun acc e => (acc.1 ++ [e], savedAdd e.dump_id acc.2))
    (([] : List Entry), ([] : List Int))
  let st1 ← write_section entries SECTION_PRE_DATA PREFERRED_PRE_DATA st0
  let st2 ← write_section entries SECTION_DATA [] st1
  let st3 ← write_section entries SECTION_POST_DATA PREFERRED_POST_DATA st2
  let st4 ← write_section entries SECTION_NONE [] st3
  pure st4.1

/-! ## The write order as the amended specification states it

The amended ordering: the first three entries of the entry list; then
for each section Pre-Data, Data, Post-Data, None in that order, the
entries whose `desc` is in the section's preferred list, in that list
order (written unconditionally), followed by the section's dependency
graph in flattened topological order, where each id not written before
is emitted at its position — including dependency ids whose entries
belong to other sections. -/

/-- The preferred block of a section: for each preferred descriptor all
entries carrying it, in entry-list order. -/
def specPreferred (entries : List Entry) (objTypes : List Str) : List Entry :=
  objTypes.flatMap (fun ot => entries.filter (fun e => e.desc = ot))

/-- One pass over an item stream: a left item is an entry written
unconditionally; a right item is a dump id written only when not yet
seen, resolved through `get_entry` (`none` when unresolvable).  Returns
the emitted entries and the final seen set. -/
def emitAll (entries : List Entry) :
    List (Entry ⊕ Int) → List Int → Option (List Entry × List Int)
  | [], seen => some ([], seen)
  | (Sum.inl e) :: t, seen =>
    match emitAll entries t (savedAdd e.dump_id seen) with
    | none => none
    | some (l, s) => some (e :: l, s)
  | (Sum.inr d) :: t, seen =>
    if d ∈ seen then emitAll entries t seen
    else
      match get_entry entries d with
      | none => none
      | some e =>
        match emitAll entries t (savedAdd d seen) with
        | none => none
        | some (l, s) => some (e :: l, s)

/-- The item stream of the amended ordering. -/
def specItems (entries : List Entry) : Option (List (Entry ⊕ Int)) := do
  let pre ← toposortFlatten (buildGraph entries SECTION_PRE_DATA)
  let dat ← toposortFlatten (buildGraph entries SECTION_DATA)
  let post ← toposortFlatten (buildGraph entries SECTION_POST_DATA)
  let non ← toposortFlatten (buildGraph entries SECTION_NONE)
  pure ((entries.take 3).map Sum.inl
    ++ ((specPreferred entries PREFERRED_PRE_DATA).map Sum.inl
      ++ (pre.map Sum.inr
        ++ (dat.map Sum.inr
          ++ ((specPreferred entries PREFERRED_POST_DATA).map Sum.inl
            ++ (post.map Sum.inr
              ++ non.map Sum.inr))))))

/-- The amended specification order. -/
def specOrder (entries : List Entry) : Option (List Entry) := do
  let items ← specItems entries
  let r ← emitAll entries items []
  pure r.1

/-- Writing a block of entries unconditionally while accumulating the
saved set is an append. -/
theorem appendFold (es : List Entry) :
    ∀ st : List Entry × List Int,
      es.foldl (fun acc e => (acc.1 ++ [e], savedAdd e.dump_id acc.2)) st
        = (st.1 ++ es, es.foldl (fun s e => savedAdd e.dump_id s) st.2) := by
  induction es with
  | nil => intro st; simp
  | cons e t ih =>
    intro st
    simp only [List.foldl_cons, ih]
    simp

/-- `emitAll` splits over concatenation of item streams. -/
theorem emitAll_append (entries : List Entry) (xs : List (Entry ⊕ Int)) :
    ∀ (ys : List (Entry ⊕ Int)) (seen : List Int),
      emitAll entries (xs ++ ys) seen
        = match emitAll entries xs seen with
          | none => none
          | some (l, s) =>
            match emitAll entries ys s with
            | none => none
            | some (l2, s2) => some (l ++ l2, s2) := by
  induction xs with
  | nil =>
    intro ys seen
    simp only [List.nil_append, emitAll]
    cases h : emitAll entries ys seen with
    | none => simp
    | some q =>
      obtain ⟨l2, s2⟩ := q
      simp
  | cons x t ih =>
    intro ys seen
    match x with
    | Sum.inl e =>
      simp only [List.cons_append, emitAll, List.append_eq]
      rw [ih]
      cases h : emitAll entries t (savedAdd e.dump_id seen) with
      | none => simp
      | some p =>
        obtain ⟨l, s⟩ := p
        dsimp only
        cases h2 : emitAll entries ys s with
        | none => simp
        | some q =>
          obtain ⟨l2, s2⟩ := q
          simp
    | Sum.inr d =>
      simp only [List.cons_append, emitAll, List.append_eq]
      by_cases hd : d ∈ seen
      · rw [if_pos hd, if_pos hd]
        exact ih ys seen
      · rw [if_neg hd, if_neg hd]
        cases hg : get_entry entries d with
        | none => rfl
        | some e =>
          dsimp only
          rw [ih]
          cases h : emitAll entries t (savedAdd d seen) with
          | none => simp
          | some p =>
            obtain ⟨l, s⟩ := p
            dsimp only
            cases h2 : emitAll entries ys s with
            | none => simp
            | some q =>
              obtain ⟨l2, s2⟩ := q
              simp

/-- Left items are emitted unconditionally, adding their ids to the seen
set. -/
theorem emitAll_inl (entries : List Entry) (es : List Entry) :
    ∀ seen : List Int,
      emitAll entries (es.map Sum.inl) seen
        = some (es, es.foldl (fun s e => savedAdd e.dump_id s) seen) := by
  induction es with
  | nil => intro seen; rfl
  | cons e t ih =>
    intro seen
    simp only [List.map_cons, emitAll, ih, List.foldl_cons]

/-- The topological phase of `_write_section` is `emitAll` on the right
items. -/
theorem foldlM_emitAll_inr (entries : List Entry) (order : List Int) :
    ∀ st : List Entry × List Int,
      order.foldlM
          (fun acc d =>
            if d ∈ acc.2 then some acc
            else
              match get_entry entries d with
              | none => none
              | some e => some (acc.1 ++ [e], savedAdd d acc.2))
          st
        = match emitAll entries (order.map Sum.inr) st.2 with
          | none => none
          | some (l, s) => some (st.1 ++ l, s) := by
  induction order with
  | nil => intro st; simp [emitAll]
  | cons d t ih =>
    intro st
    simp only [List.foldlM_cons, List.map_cons, emitAll]
    by_cases hd : d ∈ st.2
    · rw [if_pos hd, if_pos hd]
      simp only [Option.pure_def, Option.bind_eq_bind, Option.some_bind]
      exact ih st
    · rw [if_neg hd, if_neg hd]
      cases hg : get_entry entries d with
      | none => rfl
      | some e =>
        dsimp only
        simp only [Option.pure_def, Option.bind_eq_bind, Option.some_bind]
        rw [ih (st.1 ++ [e], savedAdd d st.2)]
        cases h : emitAll entries (t.map Sum.inr) (savedAdd d st.2) with
        | none => rfl
        | some p =>
          obtain ⟨l, s⟩ := p
          simp

/-- The preferred phase of `_write_section` appends the preferred block
and folds its ids into the seen set. -/
theorem preferred_foldl (entries : List Entry) (objTypes : List Str) :
    ∀ st : List Entry × List Int,
      objTypes.foldl
          (fun acc ot =>
            (entries.filter (fun e => e.desc = ot)).foldl
              (fun acc e => (acc.1 ++ [e], savedAdd e.dump_id acc.2)) acc)
          st
        = (st.1 ++ specPreferred entries objTypes,
           (specPreferred entries objTypes).foldl
             (fun s e => savedAdd e.dump_id s) st.2) := by
  induction objTypes with
  | nil => intro st; simp [specPreferred]
  | cons ot t ih =>
    intro st
    rw [List.foldl_cons, appendFold, ih]
    simp [specPreferred, List.flatMap_cons, List.foldl_append,
      List.append_assoc]

/-- An empty preferred list contributes nothing. -/
theorem specPreferred_nil (entries : List Entry) :
    specPreferred entries [] = [] := rfl

/-- `_write_section` is `emitAll` on the preferred block followed by the
section's topological ids. -/
theorem write_section_emit (entries : List Entry) (sec : Str)
    (objTypes : List Str) (st : List Entry × List Int) :
    write_section entries sec objTypes st
      = match toposortFlatten (buildGraph entries sec) with
        | none => none
        | some order =>
          match emitAll entries
              ((specPreferred entries objTypes).map Sum.inl
                ++ order.map Sum.inr) st.2 with
          | none => none
          | some (l, s) => some (st.1 ++ l, s) := by
  rw [write_section, preferred_foldl]
  cases ht : toposortFlatten (buildGraph entries sec) with
  | none => rfl
  | some order =>
    dsimp only
    rw [foldlM_emitAll_inr, emitAll_append, emitAll_inl]
    dsimp only
    cases h : emitAll entries (order.map Sum.inr)
        ((specPreferred entries objTypes).foldl
          (fun s e => savedAdd e.dump_id s) st.2) with
    | none => rfl
    | some p =>
      obtain ⟨l, s⟩ := p
      simp [List.append_assoc]

/-- C3 (amended): for every archive, `save` writes the ToC entries in
exactly this total order — the first three entries of the entry list
first; then for each section Pre-Data, Data, Post-Data, None in that
order, first every entry whose `desc` is in the section's fixed
preferred descriptor list in that list order, then the section's
dependency graph in flattened topological order, each not-yet-written
id — including dependency ids of entries from other sections — being
emitted at its position in that order. -/
theorem writeEntriesOrder_eq_specOrder (entries : List Entry) :
    writeEntriesOrder entries = specOrder entries := by
  rw [writeEntriesOrder, specOrder, specItems]
  rw [appendFold]
  simp only [List.nil_append, Option.bind_eq_bind]
  simp only [write_section_emit]
  cases t1 : toposortFlatten (buildGraph entries SECTION_PRE_DATA) with
  | none => rfl
  | some pre =>
  cases t2 : toposortFlatten (buildGraph entries SECTION_DATA) with
  | none =>
    dsimp only
    cases h1 : emitAll entries
        ((specPreferred entries PREFERRED_PRE_DATA).map Sum.inl
          ++ pre.map Sum.inr)
        ((entries.take 3).foldl (fun s e => savedAdd e.dump_id s) []) with
    | none => rfl
    | some p => obtain ⟨l, s⟩ := p; rfl
  | some dat =>
  cases t3 : toposortFlatten (buildGraph entries SECTION_POST_DATA) with
  | none =>
    dsimp only
    cases h1 : emitAll entries
        ((specPreferred entries PREFERRED_PRE_DATA).map Sum.inl
          ++ pre.map Sum.inr)
        ((entries.take 3).foldl (fun s e => savedAdd e.dump_id s) []) with
    | none => rfl
    | some p =>
      obtain ⟨l1, s1⟩ := p
      dsimp only
      cases h2 : emitAll entries (dat.map Sum.inr) s1 with
      | none => simp
      | some q => obtain ⟨l2, s2⟩ := q; simp
  | some post =>
  cases t4 : toposortFlatten (buildGraph entries SECTION_NONE) with
  | none =>
    dsimp only
    cases h1 : emitAll entries
        ((specPreferred entries PREFERRED_PRE_DATA).map Sum.inl
          ++ pre.map Sum.inr)
        ((entries.take 3).foldl (fun s e => savedAdd e.dump_id s) []) with
    | none => rfl
    | some p =>
      obtain ⟨l1, s1⟩ := p
      dsimp only
      cases h2 : emitAll entries (dat.map Sum.inr) s1 with
      | none => simp
      | some q =>
        obtain ⟨l2, s2⟩ := q
        cases h3 : emitAll entries
            ((specPreferred entries PREFERRED_POST_DATA).map Sum.inl
              ++ post.map Sum.inr) s2 with
        | none => simp
        | some r => obtain ⟨l3, s3⟩ := r; simp
  | some non =>
    dsimp only
    simp only [Option.some_bind, Option.pure_def, specPreferred_nil,
      List.map_nil, List.nil_append]
    simp only [emitAll_append, emitAll_inl]
    cases e1 : emitAll entries (List.map Sum.inr pre)
        (List.foldl (fun s e => savedAdd e.dump_id s)
          (List.foldl (fun s e => savedAdd e.dump_id s) [] (List.take 3 entries))
          (specPreferred entries PREFERRED_PRE_DATA)) with
    | none => rfl
    | some p =>
      obtain ⟨l1, s1⟩ := p
      simp only [Option.some_bind]
      cases e2 : emitAll entries (List.map Sum.inr dat) s1 with
      | none => rfl
      | some q =>
        obtain ⟨l2, s2⟩ := q
        simp only [Option.some_bind]
        cases e3 : emitAll entries (List.map Sum.inr post)
            (List.foldl (fun s e => savedAdd e.dump_id s) s2
              (specPreferred entries PREFERRED_POST_DATA)) with
        | none => rfl
        | some r =>
          obtain ⟨l3, s3⟩ := r
          simp only [Option.some_bind]
          cases e4 : emitAll entries (List.map Sum.inr non) s3 with
          | none => rfl
          | some w =>
            obtain ⟨l4, s4⟩ := w
            simp [List.append_assoc]

/-- A small authored archive for the ordering counterexample: bootstrap
entries, a `DATABASE` (Pre-Data), a `COMMENT` on it (section None), and
a `TABLE` (Pre-Data) declared dependent on the comment — every step
possible through `add_entry`. -/
def exC3e1 : Entry := { dump_id := 1, tag := ENCODING, desc := ENCODING }

/-- Ordering counterexample, bootstrap entry 2. -/
def exC3e2 : Entry := { dump_id := 2, tag := STDSTRINGS, desc := STDSTRINGS }

/-- Ordering counterexample, bootstrap entry 3. -/
def exC3e3 : Entry := { dump_id := 3, tag := SEARCHPATH, desc := SEARCHPATH }

/-- Ordering counterexample, the database entry. -/
def exC3e4 : Entry := { dump_id := 4, desc := DATABASE }

/-- Ordering counterexample, the comment (section None) depending on the
database. -/
def exC3e5 : Entry := { dump_id := 5, desc := COMMENT, dependencies := [4] }

/-- Ordering counterexample, the table (Pre-Data) depending on the
comment. -/
def exC3e6 : Entry := { dump_id := 6, desc := TABLE, dependencies := [5] }

/-- The counterexample archive. -/
def exC3Entries : List Entry :=
  [exC3e1, exC3e2, exC3e3, exC3e4, exC3e5, exC3e6]

/-- C3 counterexample: on this archive the writer emits the entries in
dump-id order 1,2,3,4,5,6 — the section-None entry 5 is written during
the Pre-Data phase, before the Pre-Data entry 6, although its `desc` is
in no preferred list.  The claimed order (bootstrap, then all Pre-Data,
Data, Post-Data and None entries in that order) would place entry 5
last. -/
theorem writeEntriesOrder_counterexample :
    writeEntriesOrder exC3Entries
      = some [exC3e1, exC3e2, exC3e3, exC3e4, exC3e5, exC3e6]
    ∧ exC3e5.sectionName = some SECTION_NONE
    ∧ exC3e6.sectionName = some SECTION_PRE_DATA
    ∧ exC3e5.desc ∉ PREFERRED_PRE_DATA ∧ exC3e5.desc ∉ PREFERRED_POST_DATA := by
  refine ⟨by decide, by decide, by decide, by decide, by decide⟩

/-! ## Spill store, table data and blob iteration
(`Dump._tempfile`, `Dump._read_table_data`, `Dump.table_data`,
`Dump.blobs`) -/

/-- The reader-facing errors modelled here. -/
inductive PgError
  | noData
  | entityNotFound
  | corrupt
deriving DecidableEq, Repr

/-- The spill directory: one decompressed byte string per dump id. -/
def spillLookup (spill : List (Int × List Nat)) (d : Int) :
    Option (List Nat) :=
  (spill.find? (fun p => p.1 = d)).map (fun p => p.2)

/-- Writing a spill file (`_tempfile(dump_id, 'wb')`): overwrite or
create. -/
def spillInsert (d : Int) (c : List Nat) :
    List (Int × List Nat) → List (Int × List Nat)
  | [] => [(d, c)]
  | (k, v) :: t => if k = d then (d, c) :: t else (k, v) :: spillInsert d c t

/-- `Dump._data_entries`: the entries of the Data section.  (For an
unknown `desc` the source's `section` property would raise `KeyError`;
here such entries are simply not Data entries — the claims only concern
archives whose descriptors are known.) -/
def dataEntries (entries : List Entry) : List Entry :=
  entries.filter (fun e => e.sectionName = some SECTION_DATA)

/-- Python `str.strip()` whitespace: every code point `str.isspace()`
holds for — the ASCII controls and space, NEL, NBSP, the Ogham space
mark, the U+2000-U+200A spaces, the line and paragraph separators, the
narrow no-break space, the medium mathematical space and the
ideographic space. -/
def isSpaceByte (c : Nat) : Bool :=
  c = 9 || c = 10 || c = 11 || c = 12 || c = 13 || c = 28 || c = 29
    || c = 30 || c = 31 || c = 32 || c = 133 || c = 160 || c = 5760
    || (8192 ≤ c && c ≤ 8202) || c = 8232 || c = 8233 || c = 8239
    || c = 8287 || c = 12288

/-- `str.strip()`: drop whitespace from both ends. -/
def strip (s : Str) : Str :=
  ((s.dropWhile isSpaceByte).reverse.dropWhile isSpaceByte).reverse

/-- Iterating a binary file handle line by line: split after each
newline byte, keeping it; a trailing partial line is yielded without
one. -/
def splitLinesGo : List Nat → List Nat → List (List Nat)
  | [], acc => if acc = [] then [] else [acc.reverse]
  | b :: t, acc =>
    if b = 10 then (acc.reverse ++ [10]) :: splitLinesGo t []
    else splitLinesGo t (b :: acc)

/-- All lines of a byte string. -/
def splitLines (bs : List Nat) : List (List Nat) := splitLinesGo bs []

/-- The loop body of `Dump._read_table_data`: strip each line, stop at
an empty line or one starting with `\.`, yield the rest. -/
def extractRows : List (List Nat) → List Str
  | [] => []
  | line :: rest =>
    let out := strip line
    if out = [] then []
    else if out.take 2 = [92, 46] then []
    else out :: extractRows rest

/-- `Dump._read_table_data`: a missing spill file (`NoDataError`) is
caught and yields no rows. -/
def readTableRows (content : Option (List Nat)) : List Str :=
  match content with
  | none => []
  | some c => extractRows (splitLines c)

/-- `Dump.table_data`: the first Data-section entry matching namespace
and tag provides the rows, each passed through the configured
converter; no match raises `EntityNotFoundError`. -/
def table_data {α : Type} (entries : List Entry)
    (spill : List (Int × List Nat)) (ns tag : Str) (conv : Str → α) :
    Except PgError (List α) :=
  match (dataEntries entries).find? (fun e => e.nspace = ns ∧ e.tag = tag) with
  | none => Except.error PgError.entityNotFound
  | some e =>
    Except.ok ((readTableRows (spillLookup spill e.dump_id)).map conv)

/-- `struct.unpack('I', fd.read(4))`: a little-endian unsigned 32-bit
word, `none` on a short read. -/
def readU32 (bs : List Nat) : Option (Nat × List Nat) :=
  match bs with
  | b0 :: b1 :: b2 :: b3 :: rest =>
    some (b0 % 256 + 256 * (b1 % 256) + 65536 * (b2 % 256)
      + 16777216 * (b3 % 256), rest)
  | _ => none

/-- The blob loop of `Dump.blobs` over one spill file: read an oid (a
failed read ends the iteration, a zero oid stops the loop), then an
unprotected length word (`none` models the uncaught `struct.error`),
then the payload. -/
def readBlobPairs (blobfuel : Nat) (bs : List Nat) :
    Option (List (Nat × List Nat)) :=
  match blobfuel with
  | 0 => none
  | fuel + 1 =>
    match readU32 bs with
    | none => some []
    | some (oid, r1) =>
      if oid = 0 then some []
      else
        match readU32 r1 with
        | none => none
        | some (len, r2) =>
          match readBlobPairs fuel (r2.drop len) with
          | none => none
          | some rest => some ((oid, r2.take len) :: rest)

/-- `Dump.blobs`: for every Data-section entry with the `BLOBS`
descriptor, open its spill file — with no `NoDataError` handler, a
missing file surfaces as the error — and yield its `(oid, bytes)`
pairs. -/
def blobs (entries : List Entry) (spill : List (Int × List Nat)) :
    Except PgError (List (Nat × List Nat)) :=
  (dataEntries entries).foldlM
    (fun acc e =>
      if e.desc = BLOBS then
        match spillLookup spill e.dump_id with
        | none => Except.error PgError.noData
        | some c =>
          match readBlobPairs (c.length + 1) c with
          | none => Except.error PgError.corrupt
          | some pairs => Except.ok (acc ++ pairs)
      else Except.ok acc)
    []

/-- A concrete `TABLE DATA` entry for the missing-spill witness. -/
def exC9td : Entry :=
  { dump_id := 4, desc := TABLE_DATA, nspace := strB "s", tag := strB "t" }

/-- A concrete `BLOBS` entry for the missing-spill counterexample. -/
def exC9blob : Entry := { dump_id := 7, desc := BLOBS }

/-- C9 (amended): a data-bearing entry whose spill file is missing is
recovered only on the table-data path — `table_data` yields zero rows —
while `blobs` has no handler and surfaces `NoDataError` as soon as it
reaches a `BLOBS` entry with a missing spill file. -/
theorem missing_spill_recovery :
    (∀ (α : Type) (entries : List Entry) (spill : List (Int × List Nat))
        (ns tag : Str) (conv : Str → α) (e : Entry),
      (dataEntries entries).find? (fun e => e.nspace = ns ∧ e.tag = tag)
          = some e →
      spillLookup spill e.dump_id = none →
      table_data entries spill ns tag conv = Except.ok []) ∧
    (∀ (entries : List Entry) (spill : List (Int × List Nat)) (e : Entry)
        (rest : List Entry),
      dataEntries entries = e :: rest → e.desc = BLOBS →
      spillLookup spill e.dump_id = none →
      blobs entries spill = Except.error PgError.noData) := by
  constructor
  · intro α entries spill ns tag conv e hfind hmiss
    rw [table_data, hfind]
    dsimp only
    rw [hmiss]
    rfl
  · intro entries spill e rest hdata hdesc hmiss
    rw [blobs, hdata, List.foldlM_cons, if_pos hdesc, hmiss]
    rfl

/-- Witness for `missing_spill_recovery` at a concrete loaded state
with a `TABLE DATA` entry and no spill file. -/
theorem missing_spill_recovery_witness :
    table_data [exC9td] [] (strB "s") (strB "t") (fun r => r)
      = Except.ok [] :=
  missing_spill_recovery.1 Str [exC9td] [] (strB "s") (strB "t")
    (fun r => r) exC9td (by decide) (by decide)

/-- C9 counterexample: a loaded archive with a `BLOBS` entry whose spill
file does not exist — iterating `blobs` surfaces `NoDataError` instead
of yielding zero pairs. -/
theorem blobs_missing_spill_counterexample :
    blobs [exC9blob] [] = Except.error PgError.noData
      ∧ ∀ l, blobs [exC9blob] [] ≠ Except.ok l := by
  have h : blobs [exC9blob] [] = Except.error PgError.noData := rfl
  refine ⟨h, ?_⟩
  intro l hcontra
  rw [h] at hcontra
  cases hcontra

/-! ## Writing data blocks (`Dump._write_table_data`,
`Dump._write_blobs`, `Dump._write_data`) -/

/-- `Dump._write_table_data`: the `BLK_DATA` byte, the dump id, the
payload length, the payload and the 0 terminator; returns the bytes and
the reported size (the payload length, both for writer-backed entries
and for spill files cached on load). -/
def write_table_data (intsize : Nat) (dump_id : Int) (content : List Nat) :
    List Nat × Nat :=
  ([BLK_DATA] ++ writeInt intsize dump_id
     ++ writeInt intsize (content.length : Int) ++ content
     ++ writeInt intsize 0,
   content.length)

/-- The per-blob loop of `Dump._write_blobs` over a spill file: each
blob becomes oid int, length int, payload, 0 terminator; the loop ends
on a short oid read and appends the final 0.  Returns the bytes and the
length of the last blob (`none` when there was no blob at all — the
source's unbound `length` crash). -/
def writeBlobsBody (intsize : Nat) : Nat → List Nat → Option (List Nat × Option Nat)
  | 0, _ => none
  | fuel + 1, bs =>
    match readU32 bs with
    | none => some (writeInt intsize 0, none)
    | some (oid, r1) =>
      match readU32 r1 with
      | none => none
      | some (len, r2) =>
        match writeBlobsBody intsize fuel (r2.drop len) with
        | none => none
        | some (tail, lastLen) =>
          some (writeInt intsize (oid : Int) ++ writeInt intsize (len : Int)
              ++ r2.take len ++ writeInt intsize 0 ++ tail,
            some (lastLen.getD len))

/-- `Dump._write_blobs`: header byte, dump id, then the blob loop;
returns the bytes and the reported size, which is the length of the
last blob written. -/
def write_blobs (intsize : Nat) (dump_id : Int) (content : List Nat) :
    Option (List Nat × Nat) :=
  match writeBlobsBody intsize (content.length + 1) content with
  | none => none
  | some (_, none) => none
  | some (body, some l) =>
    some ([BLK_BLOBS] ++ writeInt intsize dump_id ++ body, l)

/-- The `if entry.desc == constants.TABLE_DATA / elif BLOBS` dispatch
inside `Dump._write_data`: the block bytes and reported size for one
Data-section entry, plus whether the id joins `saved`.  A missing spill
file is the uncaught `NoDataError` (`none`); other Data-section
descriptors write nothing and keep `size = 0`. -/
def dataBlock (intsize : Nat) (spill : List (Int × List Nat)) (e : Entry) :
    Option ((List Nat × Nat) × Bool) :=
  if e.desc = TABLE_DATA then
    (spillLookup spill e.dump_id).map
      (fun c => (write_table_data intsize e.dump_id c, true))
  else if e.desc = BLOBS then
    (spillLookup spill e.dump_id).bind
      (fun c => (write_blobs intsize e.dump_id c).map (fun r => (r, true)))
  else some ((([] : List Nat), 0), false)

/-- `Dump._write_data`: walk the entry list; every Data-section entry
first records the current file position as its offset, then `TABLE
DATA` and `BLOBS` entries write their block (from the spill store; a
missing spill file is the uncaught `NoDataError`, `none`) and are added
to the saved set, and entries whose block reported a nonzero size move
to `pos-set`.  Returns the updated entries, the data region bytes and
the saved ids. -/
def writeData (intsize : Nat) (spill : List (Int × List Nat)) :
    List Entry → Nat → Option (List Entry × List Nat × List Int)
  | [], _ => some ([], [], [])
  | e :: rest, pos =>
    if e.sectionName = some SECTION_DATA then
      match dataBlock intsize spill e with
      | none => none
      | some ((bytes, size), wrote) =>
        match writeData intsize spill rest (pos + bytes.length) with
        | none => none
        | some (es, bs, saved) =>
          some ({ e with
                    offset := pos,
                    data_state := if size ≠ 0 then K_OFFSET_POS_SET
                                  else e.data_state } :: es,
            bytes ++ bs,
            (if wrote then [e.dump_id] else []) ++ saved)
    else
      match writeData intsize spill rest pos with
      | none => none
      | some (es, bs, saved) => some (e :: es, bs, saved)

/-- `_write_data` preserves the number of entries. -/
theorem writeData_length (intsize : Nat) (spill : List (Int × List Nat)) :
    ∀ (l : List Entry) (pos : Nat) (es : List Entry) (bs : List Nat)
      (sv : List Int),
      writeData intsize spill l pos = some (es, bs, sv) →
      es.length = l.length
  | [], pos, es, bs, sv, h => by
    simp only [writeData, Option.some.injEq, Prod.mk.injEq] at h
    obtain ⟨h1, h2, h3⟩ := h
    subst h1
    rfl
  | e :: t, pos, es, bs, sv, h => by
    simp only [writeData] at h
    by_cases hs : e.sectionName = some SECTION_DATA
    · rw [if_pos hs] at h
      cases hb : dataBlock intsize spill e with
      | none =>
        rw [hb] at h
        exact absurd h (by simp)
      | some v =>
        obtain ⟨⟨bytes, size⟩, wrote⟩ := v
        rw [hb] at h
        dsimp only at h
        cases hr : writeData intsize spill t (pos + bytes.length) with
        | none =>
          rw [hr] at h
          exact absurd h (by simp)
        | some r =>
          obtain ⟨es2, bs2, sv2⟩ := r
          rw [hr] at h
          dsimp only at h
          simp only [Option.some.injEq, Prod.mk.injEq] at h
          obtain ⟨h1, h2, h3⟩ := h
          have ih := writeData_length intsize spill t (pos + bytes.length)
            es2 bs2 sv2 hr
          subst h1
          simp [ih]
    · rw [if_neg hs] at h
      cases hr : writeData intsize spill t pos with
      | none =>
        rw [hr] at h
        exact absurd h (by simp)
      | some r =>
        obtain ⟨es2, bs2, sv2⟩ := r
        rw [hr] at h
        dsimp only at h
        simp only [Option.some.injEq, Prod.mk.injEq] at h
        obtain ⟨h1, h2, h3⟩ := h
        have ih := writeData_length intsize spill t pos es2 bs2 sv2 hr
        subst h1
        simp [ih]

/-- `_write_data` over a concatenated entry list decomposes into the two
runs, the second starting at the file position the first ended at. -/
theorem writeData_append (intsize : Nat) (spill : List (Int × List Nat)) :
    ∀ (xs ys : List Entry) (pos : Nat) (es : List Entry) (bs : List Nat)
      (sv : List Int),
      writeData intsize spill (xs ++ ys) pos = some (es, bs, sv) →
      ∃ es1 bs1 sv1 es2 bs2 sv2,
        writeData intsize spill xs pos = some (es1, bs1, sv1) ∧
        writeData intsize spill ys (pos + bs1.length) = some (es2, bs2, sv2) ∧
        es = es1 ++ es2 ∧ bs = bs1 ++ bs2 ∧ sv = sv1 ++ sv2
  | [], ys, pos, es, bs, sv, h => by
    refine ⟨[], [], [], es, bs, sv, ?_, ?_, by simp, by simp, by simp⟩
    · simp [writeData]
    · simpa using h
  | e :: t, ys, pos, es, bs, sv, h => by
    simp only [List.cons_append, writeData, List.append_eq] at h ⊢
    by_cases hs : e.sectionName = some SECTION_DATA
    · rw [if_pos hs] at h ⊢
      cases hb : dataBlock intsize spill e with
      | none =>
        rw [hb] at h
        exact absurd h (by simp)
      | some v =>
        obtain ⟨⟨bytes, size⟩, wrote⟩ := v
        rw [hb] at h
        dsimp only at h ⊢
        cases hr : writeData intsize spill (t ++ ys) (pos + bytes.length) with
        | none =>
          rw [hr] at h
          exact absurd h (by simp)
        | some r =>
          obtain ⟨esr, bsr, svr⟩ := r
          rw [hr] at h
          dsimp only at h
          simp only [Option.some.injEq, Prod.mk.injEq] at h
          obtain ⟨h1, h2, h3⟩ := h
          obtain ⟨es1, bs1, sv1, es2, bs2, sv2, hw1, hw2, he, hbs, hsv⟩ :=
            writeData_append intsize spill t ys (pos + bytes.length)
              esr bsr svr hr
          rw [hw1]
          dsimp only
          refine ⟨_, bytes ++ bs1, _, es2, bs2, sv2, rfl, ?_, ?_, ?_, ?_⟩
          · rw [List.length_append]
            rw [Nat.add_assoc] at hw2
            exact hw2
          · subst h1 he
            simp
          · subst h2 hbs
            simp
          · subst h3 hsv
            simp
    · rw [if_neg hs] at h ⊢
      cases hr : writeData intsize spill (t ++ ys) pos with
      | none =>
        rw [hr] at h
        exact absurd h (by simp)
      | some r =>
        obtain ⟨esr, bsr, svr⟩ := r
        rw [hr] at h
        dsimp only at h
        simp only [Option.some.injEq, Prod.mk.injEq] at h
        obtain ⟨h1, h2, h3⟩ := h
        obtain ⟨es1, bs1, sv1, es2, bs2, sv2, hw1, hw2, he, hbs, hsv⟩ :=
          writeData_append intsize spill t ys pos esr bsr svr hr
        rw [hw1]
        dsimp only
        refine ⟨_, bs1, _, es2, bs2, sv2, rfl, hw2, ?_, ?_, ?_⟩
        · subst h1 he
          simp
        · subst h2 hbs
          rfl
        · subst h3 hsv
          rfl

/-- **C7.** Characterization of `Dump._write_data` on save.  For every
Data-section entry the offset is set to the file position where its
block begins (for every such entry, not only those with data); a `TABLE
DATA` or `BLOBS` entry writes its block, its id joins the saved set
unconditionally, and its reported size comes from the block writer; if
that size is nonzero the `data_state` becomes pos-set, and if it is
zero the `data_state` is left unchanged — not moved to no-data — while
the block is still emitted.  Entries outside the Data section pass
through untouched. -/
theorem write_data_transitions
    (intsize : Nat) (spill : List (Int × List Nat)) (entries : List Entry)
    (pos : Nat) (es : List Entry) (bs : List Nat) (saved : List Int)
    (i : Nat) (e : Entry)
    (h : writeData intsize spill entries pos = some (es, bs, saved))
    (he : entries[i]? = some e) :
    es.length = entries.length ∧
    (e.sectionName ≠ some SECTION_DATA → es[i]? = some e) ∧
    (e.sectionName = some SECTION_DATA →
      ∃ bs1 blockBytes size,
        (∃ es1 sv1,
          writeData intsize spill (entries.take i) pos =
            some (es1, bs1, sv1)) ∧
        es[i]? = some { e with
                        offset := pos + bs1.length,
                        data_state := if size ≠ 0 then K_OFFSET_POS_SET
                                      else e.data_state } ∧
        (∃ tail, bs = bs1 ++ blockBytes ++ tail) ∧
        (e.desc = TABLE_DATA →
          ∃ c, spillLookup spill e.dump_id = some c ∧
            blockBytes = (write_table_data intsize e.dump_id c).1 ∧
            size = (write_table_data intsize e.dump_id c).2 ∧
            e.dump_id ∈ saved) ∧
        (e.desc ≠ TABLE_DATA → e.desc = BLOBS →
          ∃ c r, spillLookup spill e.dump_id = some c ∧
            write_blobs intsize e.dump_id c = some r ∧
            blockBytes = r.1 ∧ size = r.2 ∧ e.dump_id ∈ saved) ∧
        (e.desc ≠ TABLE_DATA → e.desc ≠ BLOBS →
          blockBytes = [] ∧ size = 0)) := by
  have hi : i < entries.length := by
    by_contra hn
    rw [List.getElem?_eq_none (by omega)] at he
    cases he
  have hie : entries[i] = e := by
    have hg := List.getElem?_eq_getElem hi
    rw [hg] at he
    exact Option.some.inj he
  have hdrop : entries.drop i = e :: entries.drop (i + 1) := by
    rw [List.drop_eq_getElem_cons hi, hie]
  have h0 := h
  rw [← List.take_append_drop i entries] at h
  obtain ⟨es1, bs1, sv1, es2, bs2, sv2, hw1, hw2, heq, hbq, hsq⟩ :=
    writeData_append intsize spill (entries.take i) (entries.drop i)
      pos es bs saved h
  rw [hdrop] at hw2
  have hlen1 : es1.length = i := by
    have hl := writeData_length intsize spill (entries.take i) pos
      es1 bs1 sv1 hw1
    rw [hl, List.length_take]
    omega
  refine ⟨writeData_length intsize spill entries pos es bs saved h0, ?_, ?_⟩
  · intro hs
    simp only [writeData, if_neg hs] at hw2
    cases hr : writeData intsize spill (entries.drop (i + 1))
        (pos + bs1.length) with
    | none =>
      rw [hr] at hw2
      exact absurd hw2 (by simp)
    | some r =>
      obtain ⟨esr, bsr, svr⟩ := r
      rw [hr] at hw2
      dsimp only at hw2
      simp only [Option.some.injEq, Prod.mk.injEq] at hw2
      obtain ⟨h1, h2, h3⟩ := hw2
      rw [heq, List.getElem?_append_right (le_of_eq hlen1), hlen1]
      simp [← h1]
  · intro hs
    simp only [writeData, if_pos hs] at hw2
    cases hb : dataBlock intsize spill e with
    | none =>
      rw [hb] at hw2
      exact absurd hw2 (by simp)
    | some v =>
      obtain ⟨⟨bytes, size⟩, wrote⟩ := v
      rw [hb] at hw2
      dsimp only at hw2
      cases hr : writeData intsize spill (entries.drop (i + 1))
          (pos + bs1.length + bytes.length) with
      | none =>
        rw [hr] at hw2
        exact absurd hw2 (by simp)
      | some r =>
        obtain ⟨esr, bsr, svr⟩ := r
        rw [hr] at hw2
        dsimp only at hw2
        simp only [Option.some.injEq, Prod.mk.injEq] at hw2
        obtain ⟨h1, h2, h3⟩ := hw2
        have hmem : wrote = true → e.dump_id ∈ saved := by
          intro hw
          rw [hsq, ← h3, hw]
          simp
        refine ⟨bs1, bytes, size, ⟨es1, sv1, hw1⟩, ?_, ⟨bsr, ?_⟩, ?_, ?_, ?_⟩
        · rw [heq, List.getElem?_append_right (le_of_eq hlen1), hlen1]
          simp [← h1]
        · rw [hbq, ← h2]
          simp
        · intro hd
          rw [dataBlock, if_pos hd] at hb
          cases hsp : spillLookup spill e.dump_id with
          | none =>
            rw [hsp] at hb
            exact absurd hb (by simp)
          | some c =>
            rw [hsp] at hb
            simp only [Option.map_some', Option.some.injEq,
              Prod.mk.injEq] at hb
            obtain ⟨hb1, hb3⟩ := hb
            exact ⟨c, rfl, (congrArg Prod.fst hb1).symm,
              (congrArg Prod.snd hb1).symm, hmem hb3.symm⟩
        · intro hnd hd
          rw [dataBlock, if_neg hnd, if_pos hd] at hb
          cases hsp : spillLookup spill e.dump_id with
          | none =>
            rw [hsp] at hb
            exact absurd hb (by simp)
          | some c =>
            rw [hsp] at hb
            simp only [Option.some_bind] at hb
            cases hwb : write_blobs intsize e.dump_id c with
            | none =>
              rw [hwb] at hb
              exact absurd hb (by simp)
            | some r =>
              rw [hwb] at hb
              simp only [Option.map_some', Option.some.injEq,
                Prod.mk.injEq] at hb
              obtain ⟨hb1, hb3⟩ := hb
              exact ⟨c, r, rfl, hwb, (congrArg Prod.fst hb1).symm,
                (congrArg Prod.snd hb1).symm, hmem hb3.symm⟩
        · intro hnd hnb
          rw [dataBlock, if_neg hnd, if_neg hnb] at hb
          simp only [Option.some.injEq, Prod.mk.injEq] at hb
          exact ⟨hb.1.1.symm, hb.1.2.symm⟩

/-- A concrete writer-backed `TABLE DATA` entry (one content byte). -/
def exC7e : Entry :=
  { dump_id := 4, desc := TABLE_DATA, data_state := K_OFFSET_POS_NOT_SET }

/-- A one-entry spill store holding one byte for `exC7e`. -/
def exC7spill : List (Int × List Nat) := [(4, [72])]

/-- The entry list after `_write_data` on `[exC7e]`. -/
def exC7es : List Entry :=
  [{ exC7e with offset := 0, data_state := K_OFFSET_POS_SET }]

/-- The data region bytes written for `[exC7e]`. -/
def exC7bs : List Nat := (write_table_data 4 4 [72]).1

/-- The saved ids for `[exC7e]`. -/
def exC7sv : List Int := [4]

/-- `write_data_transitions` instantiated on a concrete one-entry save. -/
theorem write_data_transitions_witness :
    writeData 4 exC7spill [exC7e] 0 = some (exC7es, exC7bs, exC7sv) ∧
    ([exC7e] : List Entry)[0]? = some exC7e ∧
    exC7es.length = ([exC7e] : List Entry).length := by
  refine ⟨by decide, by decide, ?_⟩
  exact (write_data_transitions 4 exC7spill [exC7e] 0 exC7es exC7bs exC7sv
    0 exC7e (by decide) (by decide)).1

/-- A writer-backed `TABLE DATA` entry with zero appended rows: its
spill content is empty, as for a `table_data_writer` table that was
never written to (such entries are created at pos-not-set). -/
def exC7z : Entry :=
  { dump_id := 5, desc := TABLE_DATA, data_state := K_OFFSET_POS_NOT_SET }

/-- `exC7z` after `_write_data`: offset recorded, state untouched. -/
def exC7zOut : Entry := { exC7z with offset := 0 }

/-- C7 counterexample: a zero-size data block leaves the entry's
`data_state` exactly where it was — here pos-not-set (1), not no-data
(3) as claimed — while the empty block is still emitted. -/
theorem write_data_zero_size_counterexample :
    writeData 4 [((5 : Int), ([] : List Nat))] [exC7z] 0 =
      some ([exC7zOut], (write_table_data 4 5 []).1, [(5 : Int)]) ∧
    exC7zOut.data_state = K_OFFSET_POS_NOT_SET ∧
    K_OFFSET_POS_NOT_SET ≠ K_OFFSET_NO_DATA ∧
    (write_table_data 4 5 []).1 ≠ [] := by decide

/-! ## The load-time cache loop (`Dump.load` lines 242-259) -/

/-- `Dump._read_data_uncompressed`: read chunks, each preceded by its
length int, until a missing, zero or negative length; returns the
concatenated payload and the remaining stream.  (`Dump._read_data`
dispatches on `self.compression`; the zlib-compressed variant is not
modelled and all archives here are uncompressed, as `save` forces.) -/
def readDataU (intsize : Nat) : Nat → List Nat → List Nat × List Nat
  | 0, s => ([], s)
  | fuel + 1, s =>
    match readInt intsize s with
    | (none, r) => ([], r)
    | (some bl, r) =>
      if bl ≤ 0 then ([], r)
      else
        (r.take bl.toNat
           ++ (readDataU intsize fuel (r.drop bl.toNat)).1,
         (readDataU intsize fuel (r.drop bl.toNat)).2)

/-- `_read_data_uncompressed` with enough fuel for its stream. -/
def read_data_uncompressed (intsize : Nat) (s : List Nat) :
    List Nat × List Nat :=
  readDataU intsize (s.length + 1) s

/-- `struct.pack('I', v)`: four little-endian bytes; out of range is a
`struct.error` (`none`). -/
def packU32 (v : Int) : Option (List Nat) :=
  if 0 ≤ v ∧ v < 4294967296 then
    some [v.toNat % 256, v.toNat / 256 % 256, v.toNat / 65536 % 256,
      v.toNat / 16777216 % 256]
  else none

/-- The loop of `Dump._read_blobs`: while the oid read is present and
positive, read the blob payload and the next oid, re-reading once when
the oid comes back zero. -/
def readBlobsGo (intsize : Nat) : Nat → Option Int → List Nat →
    List (Int × List Nat) × List Nat
  | 0, _, s => ([], s)
  | fuel + 1, oid, s =>
    match oid with
    | none => ([], s)
    | some o =>
      if o ≤ 0 then ([], s)
      else
        let p := read_data_uncompressed intsize s
        let q := match readInt intsize p.2 with
          | (none, r) => ((none : Option Int), r)
          | (some v, r) =>
            if v = 0 then
              match readInt intsize r with
              | (none, r2) => ((none : Option Int), r2)
              | (some v2, r2) => (some v2, r2)
            else (some v, r)
        ((o, p.1) :: (readBlobsGo intsize fuel q.1 q.2).1,
         (readBlobsGo intsize fuel q.1 q.2).2)

/-- `Dump._read_blobs`: prime the oid, then loop. -/
def read_blobs (intsize : Nat) (s : List Nat) :
    List (Int × List Nat) × List Nat :=
  readBlobsGo intsize (s.length + 2) (readInt intsize s).1
    (readInt intsize s).2

/-- `Dump._cache_blobs` spill content: for each blob pair, the packed
oid, packed length and payload. -/
def blobsCacheBytes : List (Int × List Nat) → Option (List Nat)
  | [] => some []
  | (o, b) :: t =>
    match packU32 o, packU32 (b.length : Int), blobsCacheBytes t with
    | some x, some y, some z => some (x ++ y ++ b ++ z)
    | _, _, _ => none

/-- The cache loop at the end of `Dump.load` over `_data_entries`: skip
`no-data` entries; any other state than `pos-set` raises `RuntimeError`
(`none`); for `pos-set`, seek to the entry's recorded offset, read the
block header there, require a present, nonzero dump id equal to the
entry's, and cache the `BLK_DATA` or `BLK_BLOBS` payload into the spill
store (an unknown block type is again `RuntimeError`). -/
def cacheEntries (intsize : Nat) (file : List Nat) :
    List Entry → List (Int × List Nat) → Option (List (Int × List Nat))
  | [], spill => some spill
  | e :: rest, spill =>
    if e.data_state = K_OFFSET_NO_DATA then
      cacheEntries intsize file rest spill
    else if e.data_state ≠ K_OFFSET_POS_SET then none
    else
      match readInt intsize (readByte (file.drop e.offset)).2 with
      | (none, _) => none
      | (some did, r2) =>
        if did = 0 ∨ did ≠ e.dump_id then none
        else if (readByte (file.drop e.offset)).1 = some BLK_DATA then
          cacheEntries intsize file rest
            (spillInsert e.dump_id (read_data_uncompressed intsize r2).1
              spill)
        else if (readByte (file.drop e.offset)).1 = some BLK_BLOBS then
          match blobsCacheBytes (read_blobs intsize r2).1 with
          | none => none
          | some content =>
            cacheEntries intsize file rest
              (spillInsert e.dump_id content spill)
        else none

/-- **C6.** When the cache loop of `load` succeeds, every data-bearing
entry had `data_state` no-data (skipped) or pos-set; for a pos-set
entry the block header was read directly at the entry's recorded
offset and its dump id was present, nonzero and equal to the entry's.
There is no scanning: any other `data_state` — pos-not-set included —
aborts `load` with `RuntimeError` instead. -/
theorem cache_entries_no_scan (intsize : Nat) (file : List Nat) :
    ∀ (des : List Entry) (spill spill' : List (Int × List Nat)),
      cacheEntries intsize file des spill = some spill' →
      ∀ e ∈ des,
        (e.data_state = K_OFFSET_NO_DATA ∨
          e.data_state = K_OFFSET_POS_SET) ∧
        (e.data_state = K_OFFSET_POS_SET →
          ∃ bt did r2,
            (readByte (file.drop e.offset)).1 = some bt ∧
            readInt intsize (readByte (file.drop e.offset)).2 =
              (some did, r2) ∧
            did = e.dump_id ∧ did ≠ 0 ∧
            (bt = BLK_DATA ∨ bt = BLK_BLOBS))
  | [], spill, spill', h, e, hmem => absurd hmem (List.not_mem_nil e)
  | f :: rest, spill, spill', h, e, hmem => by
    simp only [cacheEntries] at h
    rcases List.mem_cons.mp hmem with he | he
    · subst he
      by_cases h1 : e.data_state = K_OFFSET_NO_DATA
      · refine ⟨Or.inl h1, fun h2 => ?_⟩
        rw [h1] at h2
        exact absurd h2 (by decide)
      · rw [if_neg h1] at h
        by_cases h2 : e.data_state = K_OFFSET_POS_SET
        · rw [if_neg (not_not_intro h2)] at h
          refine ⟨Or.inr h2, fun _ => ?_⟩
          cases hri : readInt intsize (readByte (file.drop e.offset)).2
            with
          | mk o r2 =>
            cases o with
            | none =>
              rw [hri] at h
              exact absurd h (by simp)
            | some did =>
              rw [hri] at h
              dsimp only at h
              by_cases hg : did = 0 ∨ did ≠ e.dump_id
              · rw [if_pos hg] at h
                exact absurd h (by simp)
              · push_neg at hg
                rw [if_neg (by push_neg; exact hg)] at h
                by_cases hbt :
                    (readByte (file.drop e.offset)).1 = some BLK_DATA
                · exact ⟨BLK_DATA, did, r2, hbt, rfl, hg.2, hg.1,
                    Or.inl rfl⟩
                · rw [if_neg hbt] at h
                  by_cases hbb :
                      (readByte (file.drop e.offset)).1 = some BLK_BLOBS
                  · exact ⟨BLK_BLOBS, did, r2, hbb, rfl, hg.2, hg.1,
                      Or.inr rfl⟩
                  · rw [if_neg hbb] at h
                    exact absurd h (by simp)
        · rw [if_pos h2] at h
          exact absurd h (by simp)
    · by_cases h1 : f.data_state = K_OFFSET_NO_DATA
      · rw [if_pos h1] at h
        exact cache_entries_no_scan intsize file rest spill spill' h e he
      · rw [if_neg h1] at h
        by_cases h2 : f.data_state = K_OFFSET_POS_SET
        · rw [if_neg (not_not_intro h2)] at h
          cases hri : readInt intsize (readByte (file.drop f.offset)).2
            with
          | mk o r2 =>
            cases o with
            | none =>
              rw [hri] at h
              exact absurd h (by simp)
            | some did =>
              rw [hri] at h
              dsimp only at h
              by_cases hg : did = 0 ∨ did ≠ f.dump_id
              · rw [if_pos hg] at h
                exact absurd h (by simp)
              · rw [if_neg hg] at h
                by_cases hbt :
                    (readByte (file.drop f.offset)).1 = some BLK_DATA
                · rw [if_pos hbt] at h
                  exact cache_entries_no_scan intsize file rest _ spill'
                    h e he
                · rw [if_neg hbt] at h
                  by_cases hbb :
                      (readByte (file.drop f.offset)).1 = some BLK_BLOBS
                  · rw [if_pos hbb] at h
                    cases hbc : blobsCacheBytes (read_blobs intsize r2).1
                      with
                    | none =>
                      rw [hbc] at h
                      exact absurd h (by simp)
                    | some content =>
                      rw [hbc] at h
                      exact cache_entries_no_scan intsize file rest _
                        spill' h e he
                  · rw [if_neg hbb] at h
                    exact absurd h (by simp)
        · rw [if_pos h2] at h
          exact absurd h (by simp)

/-- A pos-set `TABLE DATA` entry whose block sits at offset 0. -/
def exC6p : Entry :=
  { dump_id := 3, desc := TABLE_DATA, data_state := K_OFFSET_POS_SET,
    offset := 0 }

/-- A data region holding exactly the one-byte block for dump id 3. -/
def exC6file : List Nat := (write_table_data 4 3 [65]).1

/-- `cache_entries_no_scan` instantiated on a concrete one-entry
cache run that succeeds. -/
theorem cache_entries_no_scan_witness :
    cacheEntries 4 exC6file [exC6p] [] = some [((3 : Int), [65])] ∧
    exC6p ∈ [exC6p] ∧
    (exC6p.data_state = K_OFFSET_NO_DATA ∨
      exC6p.data_state = K_OFFSET_POS_SET) := by
  refine ⟨by decide, by decide, ?_⟩
  exact (cache_entries_no_scan 4 exC6file [exC6p] [] [((3 : Int), [65])]
    (by decide) exC6p (by decide)).1

/-- The same entry at pos-not-set: its block is present in the file at
the very offset the entry records, yet the cache loop refuses. -/
def exC6n : Entry :=
  { dump_id := 3, desc := TABLE_DATA,
    data_state := K_OFFSET_POS_NOT_SET, offset := 0 }

/-- C6 counterexample: a data-bearing entry at pos-not-set makes the
cache loop fail (`RuntimeError: Unsupported data format`) even though
the matching `BLK_DATA` block for its dump id is right there in the
data region — the loop never scans for it. -/
theorem cache_pos_not_set_counterexample :
    cacheEntries 4 exC6file [exC6n] [] = none ∧
    exC6n.data_state = K_OFFSET_POS_NOT_SET ∧
    cacheEntries 4 exC6file [{ exC6n with
      data_state := K_OFFSET_POS_SET }] [] =
      some [((3 : Int), [65])] := by decide

/-! ## Authoring table data (`TableData`, `Dump.table_data_writer`) and
the row converter (`converters.DataConverter`) -/

/-- `TableData._convert` for the cell types the claims use: `None`
becomes the null marker `\N`, strings pass through `str` unchanged. -/
def tdConvert (cell : Option Str) : Str :=
  match cell with
  | none => strB "\\N"
  | some s => s

/-- `TableData.append`: the converted cells joined with tabs. -/
def renderRow (row : List (Option Str)) : Str :=
  List.intercalate [9] (row.map tdConvert)

/-- The writer's spill file content after appending each row:
`'{}\n'.format(row)` per call. -/
def writerContent (rows : List (List (Option Str))) : List Nat :=
  (rows.map (fun r => renderRow r ++ [10])).flatten

/-- `DataConverter.convert`: split on tabs, `\N` to `None`, unescape
the rest. -/
def dataConvert (row : Str) : List (Option Str) :=
  (row.splitOn 9).map
    (fun e => if e = strB "\\N" then none else some (unescape_copy_text e))

/-- The copy statement `table_data_writer` builds:
`'COPY {}.{} ({}) FROM stdin;'`. -/
def copyStmt (ns tag : Str) (cols : List Str) : Str :=
  strB "COPY " ++ ns ++ strB "." ++ tag ++ strB " ("
    ++ List.intercalate (strB ", ") cols ++ strB ") FROM stdin;"

/-- The `TABLE DATA` entry `Dump.table_data_writer` appends (next dump
id 5, `had_dumper` set, the copy statement over the given columns, a
dependency on the table entry), with its `data_state` and `offset`
abstracted because `_write_data` rewrites them during save. -/
def authoredTD (ns tag owner : Str) (cols : List Str) (ds off : Nat) :
    Entry :=
  { dump_id := 5, had_dumper := true, tag := tag, desc := TABLE_DATA,
    copy_stmt := copyStmt ns tag cols, nspace := ns, owner := owner,
    dependencies := [4], data_state := ds, offset := off }

/-- The first bootstrap entry of `Dump.__init__` (default `UTF8`
encoding). -/
def bootstrapEnc : Entry :=
  { dump_id := 1, tag := ENCODING, desc := ENCODING,
    defn := strB "SET client_encoding = 'UTF8';\n" }

/-- The second bootstrap entry of `Dump.__init__`. -/
def bootstrapStd : Entry :=
  { dump_id := 2, tag := STDSTRINGS, desc := STDSTRINGS,
    defn := strB "SET standard_conforming_strings = 'on';\n" }

/-- The third bootstrap entry of `Dump.__init__`. -/
def bootstrapSearch : Entry :=
  { dump_id := 3, tag := SEARCHPATH, desc := SEARCHPATH,
    defn := strB "SELECT pg_catalog.set_config('search_path', '', false);\n" }

/-- The table entry `add_entry(constants.TABLE, ns, tag, owner, tdefn,
tdrop)` appends, with the auto-computed dump id 4. -/
def authoredTable (ns tag owner tdefn tdrop : Str) : Entry :=
  { dump_id := 4, desc := TABLE, nspace := ns, tag := tag, owner := owner,
    defn := tdefn, drop_stmt := tdrop }

/-- The authored entry list with the table data entry at an arbitrary
data state and offset (as it stands before or after `_write_data`). -/
def authoredEntriesAt (ns tag owner tdefn tdrop : Str) (cols : List Str)
    (ds off : Nat) : List Entry :=
  [bootstrapEnc, bootstrapStd, bootstrapSearch,
   authoredTable ns tag owner tdefn tdrop,
   authoredTD ns tag owner cols ds off]

/-- The entry list of an archive authored as `pgdumplib.new()` (the
three bootstrap entries of `Dump.__init__` with the default `UTF8`
encoding), one `add_entry(constants.TABLE, ns, tag, owner, tdefn,
tdrop)` call (auto dump id 4) and one `table_data_writer` call for that
table, whose new entry starts at `data_state` pos-not-set. -/
def authoredEntries (ns tag owner tdefn tdrop : Str) (cols : List Str) :
    List Entry :=
  authoredEntriesAt ns tag owner tdefn tdrop cols K_OFFSET_POS_NOT_SET 0

/-- The writer spill store: dump id 5 holds the appended rows. -/
def writerSpill (rows : List (List (Option Str))) : List (Int × List Nat) :=
  [((5 : Int), writerContent rows)]

/-! ## Saving the archive (`Dump.save` / `Dump._save` / `_write_toc`) -/

/-- All ToC entries serialized in order (`_write_entries` body). -/
def writeAllEntries (intsize offsize : Nat) : List Entry → Option (List Nat)
  | [] => some []
  | e :: t =>
    match writeEntry intsize offsize e, writeAllEntries intsize offsize t with
    | some b, some r => some (b ++ r)
    | _, _ => none

/-- One `_write_toc()` + `_write_entries()` pass: the header (`MAGIC`,
version `MIN_VER`, the integer and offset widths, format `Custom` at
index 1 of `FORMATS`), the compression flag (0: `save` forces
uncompressed), the timestamp, the database name, server version and
dump version strings, the entry count and the serialized entries. -/
def tocBytes (intsize offsize : Nat) (t : PgTimestamp) (db sv dv : Str)
    (count : Int) (order : List Entry) : Option (List Nat) :=
  (writeAllEntries intsize offsize order).map
    (fun ebytes =>
      MAGIC ++ [1, 12, 0, intsize, offsize, 1]
        ++ writeInt intsize 0
        ++ writeTimestamp intsize t
        ++ writeStr intsize db ++ writeStr intsize sv ++ writeStr intsize dv
        ++ writeInt intsize count ++ ebytes)

/-- `Dump.save` via `Dump._save`: write the ToC and entries, then the
data blocks; when any data was saved, seek back to position zero and
overwrite the ToC and entries (now carrying the updated offsets and
data states), leaving any bytes past the rewritten region — the data
blocks — in place. -/
def saveDump (intsize offsize : Nat) (t : PgTimestamp) (db sv dv : Str)
    (entries : List Entry) (spill : List (Int × List Nat)) :
    Option (List Nat) :=
  match writeEntriesOrder entries with
  | none => none
  | some order1 =>
    match tocBytes intsize offsize t db sv dv (entries.length : Int)
        order1 with
    | none => none
    | some toc1 =>
      match writeData intsize spill entries toc1.length with
      | none => none
      | some (es2, data, saved) =>
        if saved = [] then some (toc1 ++ data)
        else
          match writeEntriesOrder es2 with
          | none => none
          | some order2 =>
            match tocBytes intsize offsize t db sv dv (es2.length : Int)
                order2 with
            | none => none
            | some toc2 => some (toc2 ++ (toc1 ++ data).drop toc2.length)

/-! ## Loading the archive (`Dump.load`) -/

/-- Python tuple `<=` on version triples. -/
def verLe (a b : Nat × Nat × Nat) : Bool :=
  a.1 < b.1 ∨ (a.1 = b.1 ∧ (a.2.1 < b.2.1 ∨ (a.2.1 = b.2.1 ∧ a.2.2 ≤ b.2.2)))

/-- `Dump._read_entries`: the counted entry loop. -/
def readEntries (intsize offsize : Nat) : Nat → List Nat →
    Option (List Entry × List Nat)
  | 0, s => some ([], s)
  | n + 1, s =>
    match readEntry intsize offsize s with
    | none => none
    | some (e, r) =>
      match readEntries intsize offsize n r with
      | none => none
      | some (es, r2) => some (e :: es, r2)

/-- `Dump.load`: check the magic, read the version triple, the
integer and offset widths and the format byte (an index into the
six-element `FORMATS`), enforce `MIN_VER <= version <= MAX_VER`, read
the compression flag, timestamp, the three strings and the entries,
then cache the data entries (the loop verified as
`cacheEntries`).  Only uncompressed archives are modelled (`save`
always writes the flag as 0); a nonzero — or missing, which Python's
`!= 0` also treats as compressed — flag is out of the model's scope
and maps to `none`. -/
def loadFile (file : List Nat) :
    Option (List Entry × List (Int × List Nat)) :=
  if file.take 5 = MAGIC then
    match file.drop 5 with
    | vmaj :: vmin :: vrev :: isz :: osz :: fmt :: rest =>
      if fmt < 6 then
        if verLe MIN_VER (vmaj, vmin, vrev)
            ∧ verLe (vmaj, vmin, vrev) MAX_VER then
          match readInt isz rest with
          | (comp, r1) =>
            if comp = some 0 then
              match readTimestamp isz r1 with
              | none => none
              | some (_, r2) =>
                let db := readBytes isz r2
                let sv := readBytes isz db.2
                let dv := readBytes isz sv.2
                let cnt := readInt isz dv.2
                match readEntries isz osz ((cnt.1.getD 0).toNat) cnt.2 with
                | none => none
                | some (es, _) =>
                  match cacheEntries isz file (dataEntries es) [] with
                  | none => none
                  | some spill => some (es, spill)
            else none
        else none
      else none
    | _ => none
  else none

/-- The ToC write order of the authored archive is its entry list, at
every data state and offset of the table data entry: the bootstrap
entries first, the table in the Pre-Data phase, the table data entry in
the Data phase. -/
theorem authored_orderAt (ns tag owner tdefn tdrop : Str) (cols : List Str)
    (ds off : Nat) :
    writeEntriesOrder (authoredEntriesAt ns tag owner tdefn tdrop cols ds off)
      = some (authoredEntriesAt ns tag owner tdefn tdrop cols ds off) := by
  have hpre : specPreferred
      (authoredEntriesAt ns tag owner tdefn tdrop cols ds off)
      PREFERRED_PRE_DATA = [] := by rfl
  have hpost : specPreferred
      (authoredEntriesAt ns tag owner tdefn tdrop cols ds off)
      PREFERRED_POST_DATA = [] := by rfl
  have hg1 : buildGraph (authoredEntriesAt ns tag owner tdefn tdrop cols ds off)
      SECTION_PRE_DATA = [(1, []), (2, []), (3, []), (4, [])] := by rfl
  have hg2 : buildGraph (authoredEntriesAt ns tag owner tdefn tdrop cols ds off)
      SECTION_DATA = [(5, [4])] := by rfl
  have hg3 : buildGraph (authoredEntriesAt ns tag owner tdefn tdrop cols ds off)
      SECTION_POST_DATA = [] := by rfl
  have hg4 : buildGraph (authoredEntriesAt ns tag owner tdefn tdrop cols ds off)
      SECTION_NONE = [] := by rfl
  have ht1 : toposortFlatten [((1 : Int), ([] : List Int)), (2, []), (3, []),
      (4, [])] = some [1, 2, 3, 4] := by decide
  have ht2 : toposortFlatten [((5 : Int), ([4] : List Int))]
      = some [4, 5] := by decide
  have ht3 : toposortFlatten ([] : List (Int × List Int)) = some [] := by decide
  rw [writeEntriesOrder]
  simp only [write_section_emit, hpre, hpost, hg1, hg2, hg3, hg4, ht1, ht2,
    ht3, Option.bind_eq_bind]
  rfl

/-- The table entry belongs to the Pre-Data section. -/
theorem sectionName_authoredTable (ns tag owner tdefn tdrop : Str) :
    (authoredTable ns tag owner tdefn tdrop).sectionName
      = some SECTION_PRE_DATA := rfl

/-- The table data entry belongs to the Data section. -/
theorem sectionName_authoredTD (ns tag owner : Str) (cols : List Str)
    (ds off : Nat) :
    (authoredTD ns tag owner cols ds off).sectionName
      = some SECTION_DATA := rfl

/-- `_write_data` on the authored archive: the four non-Data entries
pass through, the table data entry records its offset and (the spill
being nonempty) moves to pos-set, its block is the data region and its
id the saved set. -/
theorem authored_write_data (ns tag owner tdefn tdrop : Str)
    (cols : List Str) (ds off : Nat) (spill : List (Int × List Nat))
    (content : List Nat) (pos : Nat)
    (hsp : spillLookup spill 5 = some content) (hc : content ≠ []) :
    writeData 4 spill (authoredEntriesAt ns tag owner tdefn tdrop cols ds off)
        pos
      = some (authoredEntriesAt ns tag owner tdefn tdrop cols
            K_OFFSET_POS_SET pos,
          (write_table_data 4 5 content).1 ++ [], [5]) := by
  have hdb : dataBlock 4 spill (authoredTD ns tag owner cols ds off)
      = some ((write_table_data 4 5 content, true)) := by
    rw [dataBlock, if_pos (show (authoredTD ns tag owner cols ds off).desc
      = TABLE_DATA from rfl)]
    rw [show (authoredTD ns tag owner cols ds off).dump_id = (5 : Int)
      from rfl]
    rw [hsp]
    rfl
  simp only [authoredEntriesAt, writeData]
  rw [if_neg (show ¬bootstrapEnc.sectionName = some SECTION_DATA by decide),
    if_neg (show ¬bootstrapStd.sectionName = some SECTION_DATA by decide),
    if_neg (show ¬bootstrapSearch.sectionName = some SECTION_DATA by decide),
    if_neg (by rw [sectionName_authoredTable]; decide),
    if_pos (sectionName_authoredTD ns tag owner cols ds off)]
  rw [hdb]
  dsimp only
  rw [if_pos (show (write_table_data 4 5 content).2 ≠ 0 by
    simp only [write_table_data, ne_eq, List.length_eq_zero]
    exact hc)]
  rfl

/-- Everything `_write_toc` emits before the entries: header,
compression 0, timestamp, the three strings and the entry count 5. -/
def tocHead (t : PgTimestamp) (db sv dv : Str) : List Nat :=
  MAGIC ++ [1, 12, 0, 4, 8, 1] ++ writeInt 4 0 ++ writeTimestamp 4 t
    ++ writeStr 4 db ++ writeStr 4 sv ++ writeStr 4 dv ++ writeInt 4 5

/-- The serialized entries of the authored archive. -/
def authoredEntryBytes (ns tag owner tdefn tdrop : Str) (cols : List Str)
    (ds off : Nat) : List Nat :=
  entryFieldBytes 4 8 bootstrapEnc 2
    ++ (entryFieldBytes 4 8 bootstrapStd 2
      ++ (entryFieldBytes 4 8 bootstrapSearch 2
        ++ (entryFieldBytes 4 8 (authoredTable ns tag owner tdefn tdrop) 2
          ++ (entryFieldBytes 4 8 (authoredTD ns tag owner cols ds off) 3
            ++ []))))

/-- One full ToC pass of the authored archive. -/
def authoredToc (ns tag owner tdefn tdrop : Str) (cols : List Str)
    (t : PgTimestamp) (db sv dv : Str) (ds off : Nat) : List Nat :=
  tocHead t db sv dv ++ authoredEntryBytes ns tag owner tdefn tdrop cols ds off

/-- Serializing the authored entry list yields its entry bytes. -/
theorem authored_writeAll (ns tag owner tdefn tdrop : Str) (cols : List Str)
    (ds off : Nat) :
    writeAllEntries 4 8 (authoredEntriesAt ns tag owner tdefn tdrop cols ds off)
      = some (authoredEntryBytes ns tag owner tdefn tdrop cols ds off) := by
  simp only [authoredEntriesAt, writeAllEntries,
    writeEntry_eq_fieldBytes 4 8 bootstrapEnc SECTION_PRE_DATA 1 rfl
      (by decide),
    writeEntry_eq_fieldBytes 4 8 bootstrapStd SECTION_PRE_DATA 1 rfl
      (by decide),
    writeEntry_eq_fieldBytes 4 8 bootstrapSearch SECTION_PRE_DATA 1 rfl
      (by decide),
    writeEntry_eq_fieldBytes 4 8 (authoredTable ns tag owner tdefn tdrop)
      SECTION_PRE_DATA 1 rfl (by decide),
    writeEntry_eq_fieldBytes 4 8 (authoredTD ns tag owner cols ds off)
      SECTION_DATA 2 rfl (by decide)]
  rfl

/-- One `_write_toc` + `_write_entries` pass on the authored archive. -/
theorem authored_tocBytes (ns tag owner tdefn tdrop : Str) (cols : List Str)
    (t : PgTimestamp) (db sv dv : Str) (ds off : Nat) :
    tocBytes 4 8 t db sv dv
        ((authoredEntriesAt ns tag owner tdefn tdrop cols ds off).length : Int)
        (authoredEntriesAt ns tag owner tdefn tdrop cols ds off)
      = some (authoredToc ns tag owner tdefn tdrop cols t db sv dv ds off) := by
  rw [tocBytes, authored_writeAll, Option.map_some']
  rfl

/-- `_write_offset` always writes one state byte and `offsize`
magnitude bytes. -/
theorem writeOffset_length (offsize value ds : Nat) :
    (writeOffset offsize value ds).length = offsize + 1 := by
  simp [writeOffset, magBytes_length]

/-- The serialized length of the table data entry does not depend on
its data state or offset (they occupy the fixed-width offset field). -/
theorem authoredTD_bytes_length (ns tag owner : Str) (cols : List Str)
    (ds off ds' off' : Nat) :
    (entryFieldBytes 4 8 (authoredTD ns tag owner cols ds off) 3).length
      = (entryFieldBytes 4 8 (authoredTD ns tag owner cols ds' off') 3).length
    := by
  simp only [entryFieldBytes, authoredTD, List.append_assoc,
    List.length_append, writeOffset_length]

/-- Both ToC passes of the authored archive have the same length. -/
theorem authoredToc_length (ns tag owner tdefn tdrop : Str) (cols : List Str)
    (t : PgTimestamp) (db sv dv : Str) (ds off ds' off' : Nat) :
    (authoredToc ns tag owner tdefn tdrop cols t db sv dv ds off).length
      = (authoredToc ns tag owner tdefn tdrop cols t db sv dv ds' off').length
    := by
  simp only [authoredToc, authoredEntryBytes, List.length_append,
    authoredTD_bytes_length ns tag owner cols ds off ds' off']

/-- `Dump.save` on the authored archive with a nonempty writer spill:
the file is the second ToC pass (table data entry at pos-set, offset at
the end of the ToC) followed by the single table data block. -/
theorem authored_save (ns tag owner tdefn tdrop : Str) (cols : List Str)
    (t : PgTimestamp) (db sv dv : Str) (rows : List (List (Option Str)))
    (hc : writerContent rows ≠ []) :
    saveDump 4 8 t db sv dv (authoredEntries ns tag owner tdefn tdrop cols)
        (writerSpill rows)
      = some (authoredToc ns tag owner tdefn tdrop cols t db sv dv
            K_OFFSET_POS_SET
            (authoredToc ns tag owner tdefn tdrop cols t db sv dv
              K_OFFSET_POS_NOT_SET 0).length
          ++ (write_table_data 4 5 (writerContent rows)).1) := by
  rw [saveDump, authoredEntries, authored_orderAt]
  dsimp only
  rw [authored_tocBytes]
  dsimp only
  rw [authored_write_data ns tag owner tdefn tdrop cols K_OFFSET_POS_NOT_SET 0
    (writerSpill rows) (writerContent rows)
    ((authoredToc ns tag owner tdefn tdrop cols t db sv dv
      K_OFFSET_POS_NOT_SET 0).length)
    (by rw [writerSpill, spillLookup]; rfl) hc]
  dsimp only
  rw [if_neg (show ¬([(5 : Int)] = []) by decide)]
  rw [authored_orderAt]
  dsimp only
  rw [authored_tocBytes]
  dsimp only
  rw [List.append_nil]
  have hlen := authoredToc_length ns tag owner tdefn tdrop cols t db sv dv
    K_OFFSET_POS_SET
    ((authoredToc ns tag owner tdefn tdrop cols t db sv dv
      K_OFFSET_POS_NOT_SET 0).length)
    K_OFFSET_POS_NOT_SET 0
  rw [hlen, List.drop_left]

/-- Reading back one uncompressed data block: the length int, the
payload, the zero terminator. -/
theorem readDataU_block (intsize : Nat) (content rest : List Nat)
    (h0 : content ≠ []) (hlen : content.length < 2 ^ (8 * intsize)) :
    ∀ fuel, 2 ≤ fuel →
      readDataU intsize fuel
          (writeInt intsize (content.length : Int)
            ++ (content ++ (writeInt intsize 0 ++ rest)))
        = (content, rest) := by
  intro fuel hf
  match fuel, hf with
  | f + 2, _ =>
    rw [readDataU, readInt_writeInt_roundtrip intsize (content.length : Int)
      (content ++ (writeInt intsize 0 ++ rest)) (by simpa using hlen)]
    dsimp only
    have hpos : ¬((content.length : Int) ≤ 0) := by
      have : 0 < content.length := List.length_pos.mpr h0
      omega
    rw [if_neg hpos]
    have htn : ((content.length : Int)).toNat = content.length := by omega
    rw [htn, List.take_left, List.drop_left]
    rw [readDataU, readInt_writeInt_roundtrip intsize 0 rest (by simp)]
    dsimp only
    rw [if_pos (by omega)]
    simp

/-- Splitting after each newline walks over one newline-free line. -/
theorem splitLinesGo_line (rest : List Nat) :
    ∀ (l acc : List Nat), 10 ∉ l →
      splitLinesGo (l ++ 10 :: rest) acc
        = ((acc.reverse ++ l) ++ [10]) :: splitLinesGo rest []
  | [], acc, _ => by
    simp [splitLinesGo]
  | b :: l, acc, h => by
    have hb : ¬b = 10 := fun hb => h (by simp [hb])
    rw [List.cons_append, splitLinesGo, if_neg hb,
      splitLinesGo_line rest l (b :: acc) (fun hm => h (by simp [hm]))]
    simp

/-- A file of newline-terminated, newline-free lines splits back into
exactly those lines. -/
theorem splitLines_flatten :
    ∀ lines : List (List Nat), (∀ l ∈ lines, 10 ∉ l) →
      splitLines ((lines.map (fun l => l ++ [10])).flatten)
        = lines.map (fun l => l ++ [10])
  | [], _ => rfl
  | l :: ls, h => by
    rw [List.map_cons, List.flatten_cons, splitLines, List.append_assoc,
      List.singleton_append,
      splitLinesGo_line _ l [] (h l (by simp))]
    rw [List.reverse_nil, List.nil_append]
    have ih := splitLines_flatten ls (fun x hx => h x (by simp [hx]))
    rw [splitLines] at ih
    rw [ih]

/-- A strip-invariant string neither starts nor ends with whitespace. -/
theorem strip_invariant_parts (s : List Nat) (h : strip s = s) :
    s.dropWhile isSpaceByte = s
      ∧ s.reverse.dropWhile isSpaceByte = s.reverse := by
  have hsuf1 : s.dropWhile isSpaceByte <:+ s := List.dropWhile_suffix _
  have hlen1 : (strip s).length ≤ (s.dropWhile isSpaceByte).length := by
    rw [strip, List.length_reverse]
    calc ((s.dropWhile isSpaceByte).reverse.dropWhile isSpaceByte).length
        ≤ (s.dropWhile isSpaceByte).reverse.length :=
          (List.dropWhile_suffix _).length_le
      _ = (s.dropWhile isSpaceByte).length := List.length_reverse _
  have hfront : s.dropWhile isSpaceByte = s := by
    apply List.IsSuffix.eq_of_length hsuf1
    have := hsuf1.length_le
    rw [h] at hlen1
    omega
  refine ⟨hfront, ?_⟩
  have : ((s.dropWhile isSpaceByte).reverse.dropWhile isSpaceByte).reverse
      = s := h
  rw [hfront] at this
  have h2 : s.reverse.dropWhile isSpaceByte = s.reverse := by
    have := congrArg List.reverse this
    rwa [List.reverse_reverse] at this
  exact h2

/-- Stripping a nonempty strip-invariant line with its trailing newline
recovers the line. -/
theorem strip_line_newline (s : List Nat) (h0 : s ≠ [])
    (h : strip s = s) : strip (s ++ [10]) = s := by
  obtain ⟨hfront, hback⟩ := strip_invariant_parts s h
  match s, h0 with
  | c :: t, _ =>
    have hc : isSpaceByte c = false := by
      by_cases hb : isSpaceByte c = true
      · rw [List.dropWhile_cons, if_pos hb] at hfront
        have := congrArg List.length hfront
        have hsuf : t.dropWhile isSpaceByte <:+ t :=
          List.dropWhile_suffix isSpaceByte
        have hle := hsuf.length_le
        simp at this
        omega
      · simpa using hb
    rw [strip, List.cons_append, List.dropWhile_cons, if_neg (by simp [hc])]
    have hrev : (c :: (t ++ [10])).reverse = 10 :: (c :: t).reverse := by
      simp
    rw [hrev, List.dropWhile_cons, if_pos (by simp [isSpaceByte]), hback,
      List.reverse_reverse]

/-- `_read_table_data` keeps every line that strips to itself, is
nonempty and does not start with the terminator. -/
theorem extractRows_lines :
    ∀ lines : List (List Nat),
      (∀ l ∈ lines, l ≠ [] ∧ strip l = l ∧ l.take 2 ≠ [92, 46]) →
      extractRows (lines.map (fun l => l ++ [10])) = lines
  | [], _ => rfl
  | l :: ls, h => by
    obtain ⟨h0, hs, ht⟩ := h l (by simp)
    rw [List.map_cons, extractRows]
    rw [show strip (l ++ [10]) = l from strip_line_newline l h0 hs]
    rw [if_neg h0, if_neg ht,
      extractRows_lines ls (fun x hx => h x (by simp [hx]))]

/-- `normEntry` only rewrites the OIDs and dependency list. -/
theorem normEntry_fields (e : Entry) :
    (normEntry e).desc = e.desc ∧ (normEntry e).dump_id = e.dump_id
      ∧ (normEntry e).nspace = e.nspace ∧ (normEntry e).tag = e.tag
      ∧ (normEntry e).data_state = e.data_state
      ∧ (normEntry e).offset = e.offset :=
  ⟨rfl, rfl, rfl, rfl, rfl, rfl⟩

/-- The authored table entry serializes at any string widths below the
4-byte bound. -/
theorem authoredTable_wf (ns tag owner tdefn tdrop : Str)
    (h1 : ns.length < 2 ^ 32) (h2 : tag.length < 2 ^ 32)
    (h3 : owner.length < 2 ^ 32) (h4 : tdefn.length < 2 ^ 32)
    (h5 : tdrop.length < 2 ^ 32) :
    EntryWf 4 8 (authoredTable ns tag owner tdefn tdrop) :=
  ⟨rfl,
   show ((4 : Int)).natAbs < 2 ^ (8 * 4) by norm_num,
   show ([] : Str).length < 2 ^ (8 * 4) by norm_num,
   show ([] : Str).length < 2 ^ (8 * 4) by norm_num,
   show tag.length < 2 ^ (8 * 4) from lt_of_lt_of_le h2 (by norm_num),
   show TABLE.length < 2 ^ (8 * 4) by norm_num [TABLE, strB],
   show tdefn.length < 2 ^ (8 * 4) from lt_of_lt_of_le h4 (by norm_num),
   show tdrop.length < 2 ^ (8 * 4) from lt_of_lt_of_le h5 (by norm_num),
   show ([] : Str).length < 2 ^ (8 * 4) by norm_num,
   show ns.length < 2 ^ (8 * 4) from lt_of_lt_of_le h1 (by norm_num),
   show ([] : Str).length < 2 ^ (8 * 4) by norm_num,
   show owner.length < 2 ^ (8 * 4) from lt_of_lt_of_le h3 (by norm_num),
   show ∀ d ∈ ([] : List Int), (intDigits d).length < 2 ^ (8 * 4) by simp,
   show K_OFFSET_NO_DATA < 256 by norm_num [K_OFFSET_NO_DATA],
   show 0 < 256 ^ 8 by norm_num⟩

/-- The authored table data entry serializes at any data state below
256 and offset below the 8-byte bound. -/
theorem authoredTD_wf (ns tag owner : Str) (cols : List Str) (ds off : Nat)
    (h1 : ns.length < 2 ^ 32) (h2 : tag.length < 2 ^ 32)
    (h3 : owner.length < 2 ^ 32)
    (hcs : (copyStmt ns tag cols).length < 2 ^ 32)
    (hds : ds < 256) (hoff : off < 256 ^ 8) :
    EntryWf 4 8 (authoredTD ns tag owner cols ds off) :=
  ⟨rfl,
   show ((5 : Int)).natAbs < 2 ^ (8 * 4) by norm_num,
   show ([] : Str).length < 2 ^ (8 * 4) by norm_num,
   show ([] : Str).length < 2 ^ (8 * 4) by norm_num,
   show tag.length < 2 ^ (8 * 4) from lt_of_lt_of_le h2 (by norm_num),
   show TABLE_DATA.length < 2 ^ (8 * 4) by norm_num [TABLE_DATA, strB],
   show ([] : Str).length < 2 ^ (8 * 4) by norm_num,
   show ([] : Str).length < 2 ^ (8 * 4) by norm_num,
   show (copyStmt ns tag cols).length < 2 ^ (8 * 4) from
     lt_of_lt_of_le hcs (by norm_num),
   show ns.length < 2 ^ (8 * 4) from lt_of_lt_of_le h1 (by norm_num),
   show ([] : Str).length < 2 ^ (8 * 4) by norm_num,
   show owner.length < 2 ^ (8 * 4) from lt_of_lt_of_le h3 (by norm_num),
   show ∀ d ∈ ([4] : List Int), (intDigits d).length < 2 ^ (8 * 4) by
     intro d hd
     simp only [List.mem_singleton] at hd
     subst hd
     rw [intDigits, if_neg (by norm_num), show ((4 : Int)).natAbs = 4
       from rfl, natDigits, dif_pos (by norm_num)]
     norm_num,
   show ds < 256 from hds,
   show off < 256 ^ 8 from hoff⟩

/-- One unfolding step of the counted entry loop. -/
theorem readEntries_succ (intsize offsize n : Nat) (s : List Nat) :
    readEntries intsize offsize (n + 1) s
      = match readEntry intsize offsize s with
        | none => none
        | some (e, r) =>
          match readEntries intsize offsize n r with
          | none => none
          | some (es, r2) => some (e :: es, r2) := rfl

/-- Reading the five serialized entries of the authored archive back. -/
theorem authored_readEntries (ns tag owner tdefn tdrop : Str)
    (cols : List Str) (ds off : Nat) (tail : List Nat)
    (hwf4 : EntryWf 4 8 (authoredTable ns tag owner tdefn tdrop))
    (hwf5 : EntryWf 4 8 (authoredTD ns tag owner cols ds off)) :
    readEntries 4 8 5
        (authoredEntryBytes ns tag owner tdefn tdrop cols ds off ++ tail)
      = some ([normEntry bootstrapEnc, normEntry bootstrapStd,
          normEntry bootstrapSearch,
          normEntry (authoredTable ns tag owner tdefn tdrop),
          normEntry (authoredTD ns tag owner cols ds off)], tail) := by
  have hI : 1 ≤ 4 := by norm_num
  have hs2 : ((2 : Int)).natAbs < 2 ^ (8 * 4) := by norm_num
  have hs3 : ((3 : Int)).natAbs < 2 ^ (8 * 4) := by norm_num
  have hwf1 : EntryWf 4 8 bootstrapEnc := by
    constructor <;> decide
  have hwf2 : EntryWf 4 8 bootstrapStd := by
    constructor <;> decide
  have hwf3 : EntryWf 4 8 bootstrapSearch := by
    constructor <;> decide
  rw [authoredEntryBytes]
  simp only [List.append_assoc, List.nil_append, List.append_nil]
  rw [show (5 : Nat) = 4 + 1 from rfl, readEntries_succ,
    readEntry_entryFieldBytes 4 8 hI bootstrapEnc 2 hs2 _ hwf1]
  dsimp only
  rw [show (4 : Nat) = 3 + 1 from rfl, readEntries_succ,
    readEntry_entryFieldBytes 4 8 hI bootstrapStd 2 hs2 _ hwf2]
  dsimp only
  rw [show (3 : Nat) = 2 + 1 from rfl, readEntries_succ,
    readEntry_entryFieldBytes 4 8 hI bootstrapSearch 2 hs2 _ hwf3]
  dsimp only
  rw [show (2 : Nat) = 1 + 1 from rfl, readEntries_succ,
    readEntry_entryFieldBytes 4 8 hI
      (authoredTable ns tag owner tdefn tdrop) 2 hs2 _ hwf4]
  dsimp only
  rw [show (1 : Nat) = 0 + 1 from rfl, readEntries_succ,
    readEntry_entryFieldBytes 4 8 hI
      (authoredTD ns tag owner cols ds off) 3 hs3 _ hwf5]
  dsimp only
  rfl

/-- Reading one whole data block stream back: there is always enough
fuel for the stream itself. -/
theorem read_data_uncompressed_block (intsize : Nat) (content : List Nat)
    (h0 : content ≠ []) (hlen : content.length < 2 ^ (8 * intsize)) :
    read_data_uncompressed intsize
        (writeInt intsize (content.length : Int)
          ++ (content ++ (writeInt intsize 0 ++ [])))
      = (content, []) := by
  rw [read_data_uncompressed]
  apply readDataU_block intsize content [] h0 hlen
  rw [List.length_append, writeInt_length]
  omega

/-- Caching the single data entry of the authored archive: seek to its
recorded offset — the end of the ToC — read the `BLK_DATA` block there
and spill its payload. -/
theorem authored_cache (ns tag owner : Str) (cols : List Str)
    (t : PgTimestamp) (db sv dv tdefn tdrop : Str) (X : Nat)
    (content : List Nat)
    (hX : (authoredToc ns tag owner tdefn tdrop cols t db sv dv
      K_OFFSET_POS_SET X).length = X)
    (hc : content ≠ []) (hclen : content.length < 2 ^ 32) :
    cacheEntries 4
        (authoredToc ns tag owner tdefn tdrop cols t db sv dv
            K_OFFSET_POS_SET X
          ++ (write_table_data 4 5 content).1)
        [normEntry (authoredTD ns tag owner cols K_OFFSET_POS_SET X)] []
      = some [((5 : Int), content)] := by
  have hdsp : (normEntry (authoredTD ns tag owner cols K_OFFSET_POS_SET
    X)).data_state = K_OFFSET_POS_SET := rfl
  have hoffp : (normEntry (authoredTD ns tag owner cols K_OFFSET_POS_SET
    X)).offset = X := rfl
  have hidp : (normEntry (authoredTD ns tag owner cols K_OFFSET_POS_SET
    X)).dump_id = (5 : Int) := rfl
  have hblk : (write_table_data 4 5 content).1
      = 1 :: (writeInt 4 5 ++ (writeInt 4 (content.length : Int)
        ++ (content ++ (writeInt 4 0 ++ [])))) := by
    simp [write_table_data, BLK_DATA, List.append_assoc]
  have hdropX : (authoredToc ns tag owner tdefn tdrop cols t db sv dv
        K_OFFSET_POS_SET X
      ++ (1 :: (writeInt 4 5 ++ (writeInt 4 (content.length : Int)
        ++ (content ++ (writeInt 4 0 ++ [])))))).drop X
      = 1 :: (writeInt 4 5 ++ (writeInt 4 (content.length : Int)
        ++ (content ++ (writeInt 4 0 ++ [])))) := List.drop_left' hX
  simp only [cacheEntries, hdsp, hoffp, hidp, hblk, hdropX]
  rw [if_neg (show ¬(K_OFFSET_POS_SET = K_OFFSET_NO_DATA) by decide),
    if_neg (show ¬(K_OFFSET_POS_SET ≠ K_OFFSET_POS_SET) by decide)]
  rw [show readByte (1 :: (writeInt 4 5 ++ (writeInt 4 (content.length : Int)
      ++ (content ++ (writeInt 4 0 ++ [])))))
    = (some 1, writeInt 4 5 ++ (writeInt 4 (content.length : Int)
      ++ (content ++ (writeInt 4 0 ++ [])))) from rfl]
  dsimp only
  rw [readInt_writeInt_roundtrip 4 5 _ (by norm_num)]
  dsimp only
  rw [if_neg (show ¬((5 : Int) = 0 ∨ (5 : Int) ≠ 5) by decide)]
  rw [if_pos (show (some (1 : Nat)) = some BLK_DATA from rfl)]
  rw [read_data_uncompressed_block 4 content hc
    (lt_of_lt_of_le hclen (by norm_num))]
  rfl

/-- `Dump.load` on the saved authored archive: header checks pass, the
metadata reads back, the five entries parse (normalized), and the table
data block is cached into the spill store. -/
theorem authored_load (ns tag owner tdefn tdrop : Str) (cols : List Str)
    (t : PgTimestamp) (db sv dv : Str) (X : Nat) (content : List Nat)
    (ht : validTimestamp t = true)
    (hdb : db.length < 2 ^ 32) (hsv : sv.length < 2 ^ 32)
    (hdv : dv.length < 2 ^ 32)
    (hwf4 : EntryWf 4 8 (authoredTable ns tag owner tdefn tdrop))
    (hwf5 : EntryWf 4 8 (authoredTD ns tag owner cols K_OFFSET_POS_SET X))
    (hX : (authoredToc ns tag owner tdefn tdrop cols t db sv dv
      K_OFFSET_POS_SET X).length = X)
    (hc : content ≠ []) (hclen : content.length < 2 ^ 32) :
    loadFile (authoredToc ns tag owner tdefn tdrop cols t db sv dv
          K_OFFSET_POS_SET X
        ++ (write_table_data 4 5 content).1)
      = some ([normEntry bootstrapEnc, normEntry bootstrapStd,
          normEntry bootstrapSearch,
          normEntry (authoredTable ns tag owner tdefn tdrop),
          normEntry (authoredTD ns tag owner cols K_OFFSET_POS_SET X)],
        [((5 : Int), content)]) := by
  have htake : (authoredToc ns tag owner tdefn tdrop cols t db sv dv
        K_OFFSET_POS_SET X
      ++ (write_table_data 4 5 content).1).take 5 = MAGIC := by
    simp only [authoredToc, tocHead, List.append_assoc]
    rw [show (5 : Nat) = MAGIC.length from rfl, List.take_left]
  have hdrop : (authoredToc ns tag owner tdefn tdrop cols t db sv dv
        K_OFFSET_POS_SET X
      ++ (write_table_data 4 5 content).1).drop 5
      = 1 :: 12 :: 0 :: 4 :: 8 :: 1 :: (writeInt 4 0
        ++ (writeTimestamp 4 t ++ (writeStr 4 db ++ (writeStr 4 sv
          ++ (writeStr 4 dv ++ (writeInt 4 5
            ++ (authoredEntryBytes ns tag owner tdefn tdrop cols
                  K_OFFSET_POS_SET X
              ++ (write_table_data 4 5 content).1))))))) := by
    simp only [authoredToc, tocHead, List.append_assoc]
    rw [show (5 : Nat) = MAGIC.length from rfl, List.drop_left]
    simp only [List.cons_append, List.nil_append]
  rw [loadFile, htake, if_pos rfl, hdrop]
  dsimp only
  rw [if_pos (show (1 : Nat) < 6 by norm_num)]
  rw [if_pos (show (verLe MIN_VER (1, 12, 0) ∧ verLe (1, 12, 0) MAX_VER)
    by decide)]
  rw [readInt_writeInt_roundtrip 4 0 _ (by norm_num)]
  dsimp only
  rw [if_pos rfl]
  rw [readTimestamp_writeTimestamp 4 (by norm_num) t _ ht]
  dsimp only
  rw [readBytes_writeStr 4 db _ (lt_of_lt_of_le hdb (by norm_num))]
  dsimp only
  rw [readBytes_writeStr 4 sv _ (lt_of_lt_of_le hsv (by norm_num))]
  dsimp only
  rw [readBytes_writeStr 4 dv _ (lt_of_lt_of_le hdv (by norm_num))]
  dsimp only
  rw [readInt_writeInt_roundtrip 4 5 _ (by norm_num)]
  dsimp only
  rw [show ((some (5 : Int)).getD 0).toNat = 5 from rfl]
  rw [authored_readEntries ns tag owner tdefn tdrop cols K_OFFSET_POS_SET X
    _ hwf4 hwf5]
  dsimp only
  have c1 : decide ((normEntry bootstrapEnc).sectionName
      = some SECTION_DATA) = false := by decide
  have c2 : decide ((normEntry bootstrapStd).sectionName
      = some SECTION_DATA) = false := by decide
  have c3 : decide ((normEntry bootstrapSearch).sectionName
      = some SECTION_DATA) = false := by decide
  have c4 : decide ((normEntry (authoredTable ns tag owner tdefn
      tdrop)).sectionName = some SECTION_DATA) = false := by
    rw [show (normEntry (authoredTable ns tag owner tdefn
      tdrop)).sectionName = some SECTION_PRE_DATA from rfl]
    decide
  have c5 : decide ((normEntry (authoredTD ns tag owner cols
      K_OFFSET_POS_SET X)).sectionName = some SECTION_DATA) = true := by
    rw [show (normEntry (authoredTD ns tag owner cols K_OFFSET_POS_SET
      X)).sectionName = some SECTION_DATA from rfl]
    decide
  rw [show dataEntries [normEntry bootstrapEnc, normEntry bootstrapStd,
      normEntry bootstrapSearch,
      normEntry (authoredTable ns tag owner tdefn tdrop),
      normEntry (authoredTD ns tag owner cols K_OFFSET_POS_SET X)]
    = [normEntry (authoredTD ns tag owner cols K_OFFSET_POS_SET X)] by
    simp [dataEntries, List.filter, c1, c2, c3, c4, c5]]
  rw [authored_cache ns tag owner cols t db sv dv tdefn tdrop X content hX
    hc hclen]

/-- The only Data-section entry of the loaded authored archive is the
table data entry. -/
theorem authored_dataEntries (ns tag owner tdefn tdrop : Str)
    (cols : List Str) (ds off : Nat) :
    dataEntries [normEntry bootstrapEnc, normEntry bootstrapStd,
        normEntry bootstrapSearch,
        normEntry (authoredTable ns tag owner tdefn tdrop),
        normEntry (authoredTD ns tag owner cols ds off)]
      = [normEntry (authoredTD ns tag owner cols ds off)] := by
  have c4 : decide ((normEntry (authoredTable ns tag owner tdefn
      tdrop)).sectionName = some SECTION_DATA) = false := by
    rw [show (normEntry (authoredTable ns tag owner tdefn
      tdrop)).sectionName = some SECTION_PRE_DATA from rfl]
    decide
  have c5 : decide ((normEntry (authoredTD ns tag owner cols ds
      off)).sectionName = some SECTION_DATA) = true := by
    rw [show (normEntry (authoredTD ns tag owner cols ds
      off)).sectionName = some SECTION_DATA from rfl]
    decide
  have c1 : decide ((normEntry bootstrapEnc).sectionName
      = some SECTION_DATA) = false := by decide
  have c2 : decide ((normEntry bootstrapStd).sectionName
      = some SECTION_DATA) = false := by decide
  have c3 : decide ((normEntry bootstrapSearch).sectionName
      = some SECTION_DATA) = false := by decide
  simp [dataEntries, List.filter, c1, c2, c3, c4, c5]

/-- Iterating `table_data` on the loaded authored archive yields the
appended rows, each converted from its rendered text. -/
theorem authored_table_data (ns tag owner tdefn tdrop : Str)
    (cols : List Str) (ds off : Nat) (rows : List (List (Option Str)))
    (hrow : ∀ r ∈ rows, renderRow r ≠ [] ∧ strip (renderRow r) = renderRow r
      ∧ 10 ∉ renderRow r ∧ (renderRow r).take 2 ≠ [92, 46]) :
    table_data [normEntry bootstrapEnc, normEntry bootstrapStd,
        normEntry bootstrapSearch,
        normEntry (authoredTable ns tag owner tdefn tdrop),
        normEntry (authoredTD ns tag owner cols ds off)]
        [((5 : Int), writerContent rows)] ns tag dataConvert
      = Except.ok (rows.map (fun r => dataConvert (renderRow r))) := by
  rw [table_data, authored_dataEntries]
  have hp : (fun e => decide (e.nspace = ns ∧ e.tag = tag))
      (normEntry (authoredTD ns tag owner cols ds off)) = true := by
    simp only [decide_eq_true_eq]
    exact ⟨rfl, rfl⟩
  have hfind : List.find? (fun e => decide (e.nspace = ns ∧ e.tag = tag))
      [normEntry (authoredTD ns tag owner cols ds off)]
      = some (normEntry (authoredTD ns tag owner cols ds off)) :=
    List.find?_cons_of_pos [] hp
  rw [hfind]
  dsimp only
  rw [show (normEntry (authoredTD ns tag owner cols ds off)).dump_id
    = (5 : Int) from rfl]
  rw [show spillLookup [((5 : Int), writerContent rows)] 5
    = some (writerContent rows) from rfl]
  rw [show readTableRows (some (writerContent rows))
    = extractRows (splitLines (writerContent rows)) from rfl]
  have hflat : writerContent rows
      = ((rows.map renderRow).map (fun l => l ++ [10])).flatten := by
    rw [writerContent, List.map_map]
    rfl
  rw [hflat, splitLines_flatten (rows.map renderRow) ?hnl,
    extractRows_lines (rows.map renderRow) ?hok, List.map_map]
  · rfl
  case hnl =>
    intro l hl
    obtain ⟨r, hr, rfl⟩ := List.mem_map.mp hl
    exact (hrow r hr).2.2.1
  case hok =>
    intro l hl
    obtain ⟨r, hr, rfl⟩ := List.mem_map.mp hl
    exact ⟨(hrow r hr).1, (hrow r hr).2.1, (hrow r hr).2.2.2⟩

/-- The first ToC pass fits the eight-byte offset width whenever the
combined metadata fits the four-byte integer width. -/
theorem authoredToc_bound (ns tag owner tdefn tdrop db sv dv : Str) (cols : List Str)
    (t : PgTimestamp) (rows : List (List (Option Str)))
    (hbound : ns.length + tag.length + owner.length + tdefn.length
      + tdrop.length + (copyStmt ns tag cols).length + db.length
      + sv.length + dv.length + (writerContent rows).length < 2 ^ 32) :
    (authoredToc ns tag owner tdefn tdrop cols t db sv dv
      K_OFFSET_POS_NOT_SET 0).length < 256 ^ 8 := by
  have l1 : ENCODING.length = 8 := by decide
  have l2 : STDSTRINGS.length = 10 := by decide
  have l3 : SEARCHPATH.length = 10 := by decide
  have l4 : TABLE.length = 5 := by decide
  have l5 : TABLE_DATA.length = 10 := by decide
  have l6 : (intDigits 4).length = 1 := by
    rw [intDigits, if_neg (by norm_num), show ((4 : Int)).natAbs = 4
      from rfl, natDigits, dif_pos (by norm_num)]
    rfl
  set_option maxRecDepth 4000 in
  simp [l1, l2, l3, l4, l5, l6, authoredToc, tocHead, authoredEntryBytes, entryFieldBytes,
    bootstrapEnc, bootstrapStd, bootstrapSearch, authoredTable, authoredTD,
    writeStr, writeTimestamp, depsBytes, MAGIC, strB, List.length_append,
    writeInt_length, writeOffset_length]
  omega

/-- **C1.** For every authored archive — `pgdumplib.new()`, one table
entry, one `table_data_writer` through which `k ≥ 1` rows were appended
— whose metadata strings fit the four-byte integer width, whose
timestamp is valid, and whose appended rows render to nonempty,
strip-invariant, newline-free lines not beginning with `\.`: after
`save` followed by `load`, iterating `table_data(namespace, tag)`
yields exactly `k` rows, in the order appended, each equal to the
configured converter's value of the rendered appended row. -/
theorem table_data_round_trip (ns tag owner tdefn tdrop db sv dv : Str)
    (cols : List Str) (t : PgTimestamp) (rows : List (List (Option Str)))
    (ht : validTimestamp t = true)
    (hrows : rows ≠ [])
    (hrow : ∀ r ∈ rows, renderRow r ≠ [] ∧ strip (renderRow r) = renderRow r
      ∧ 10 ∉ renderRow r ∧ (renderRow r).take 2 ≠ [92, 46])
    (hbound : ns.length + tag.length + owner.length + tdefn.length
      + tdrop.length + (copyStmt ns tag cols).length + db.length
      + sv.length + dv.length + (writerContent rows).length < 2 ^ 32) :
    ∃ file entries spill,
      saveDump 4 8 t db sv dv
          (authoredEntries ns tag owner tdefn tdrop cols) (writerSpill rows)
        = some file ∧
      loadFile file = some (entries, spill) ∧
      table_data entries spill ns tag dataConvert
        = Except.ok (rows.map (fun r => dataConvert (renderRow r))) ∧
      (rows.map (fun r => dataConvert (renderRow r))).length
        = rows.length := by
  have hc : writerContent rows ≠ [] := by
    cases rows with
    | nil => exact absurd rfl hrows
    | cons r rs => simp [writerContent]
  have hns : ns.length < 2 ^ 32 := by omega
  have htag : tag.length < 2 ^ 32 := by omega
  have howner : owner.length < 2 ^ 32 := by omega
  have htdefn : tdefn.length < 2 ^ 32 := by omega
  have htdrop : tdrop.length < 2 ^ 32 := by omega
  have hcopy : (copyStmt ns tag cols).length < 2 ^ 32 := by omega
  have hdb : db.length < 2 ^ 32 := by omega
  have hsv : sv.length < 2 ^ 32 := by omega
  have hdv : dv.length < 2 ^ 32 := by omega
  have hclen : (writerContent rows).length < 2 ^ 32 := by omega
  have hwf4 := authoredTable_wf ns tag owner tdefn tdrop hns htag howner
    htdefn htdrop
  have hXb := authoredToc_bound ns tag owner tdefn tdrop db sv dv cols t
    rows hbound
  have hwf5 := authoredTD_wf ns tag owner cols K_OFFSET_POS_SET
    ((authoredToc ns tag owner tdefn tdrop cols t db sv dv
      K_OFFSET_POS_NOT_SET 0).length)
    hns htag howner hcopy (by norm_num [K_OFFSET_POS_SET]) hXb
  have hX := authoredToc_length ns tag owner tdefn tdrop cols t db sv dv
    K_OFFSET_POS_SET
    ((authoredToc ns tag owner tdefn tdrop cols t db sv dv
      K_OFFSET_POS_NOT_SET 0).length)
    K_OFFSET_POS_NOT_SET 0
  refine ⟨_, _, _,
    authored_save ns tag owner tdefn tdrop cols t db sv dv rows hc,
    authored_load ns tag owner tdefn tdrop cols t db sv dv _
      (writerContent rows) ht hdb hsv hdv hwf4 hwf5 hX hc hclen,
    authored_table_data ns tag owner tdefn tdrop cols K_OFFSET_POS_SET _
      rows hrow,
    by simp⟩

/-- A concrete valid timestamp for the round-trip examples. -/
def exC1t : PgTimestamp :=
  { second := 30, minute := 15, hour := 12, day := 10, month := 6,
    year := 2020 }

/-- `table_data_round_trip` instantiated on a one-row archive. -/
theorem table_data_round_trip_witness :
    (validTimestamp exC1t = true
      ∧ ([[some (strB "x")]] : List (List (Option Str))) ≠ []) ∧
    ∃ file entries spill,
      saveDump 4 8 exC1t (strB "d") (strB "v") (strB "w")
          (authoredEntries (strB "s") (strB "t") (strB "o") [] []
            [strB "c"])
          (writerSpill [[some (strB "x")]])
        = some file ∧
      loadFile file = some (entries, spill) ∧
      table_data entries spill (strB "s") (strB "t") dataConvert
        = Except.ok ([[some (strB "x")]].map
            (fun r => dataConvert (renderRow r))) ∧
      ([[some (strB "x")]].map
          (fun r => dataConvert (renderRow r))).length
        = [[some (strB "x")]].length :=
  ⟨⟨by decide, by decide⟩,
    table_data_round_trip (strB "s") (strB "t") (strB "o") [] []
      (strB "d") (strB "v") (strB "w") [strB "c"] exC1t
      [[some (strB "x")]] (by decide) (by decide) (by decide) (by decide)⟩

/-- C1 counterexample: one appended row whose single cell carries a
trailing space.  The full save/load pipeline succeeds, but iterating
`table_data` returns the stripped cell `"a"` — not the converted value
`"a "` of the appended row — because `_read_table_data` strips each
spilled line before converting it. -/
theorem table_data_round_trip_counterexample :
    (∃ file entries spill,
      saveDump 4 8 exC1t (strB "d") (strB "v") (strB "w")
          (authoredEntries (strB "s") (strB "t") (strB "o") [] []
            [strB "c"])
          (writerSpill [[some (strB "a ")]])
        = some file ∧
      loadFile file = some (entries, spill) ∧
      table_data entries spill (strB "s") (strB "t") dataConvert
        = Except.ok [[some (strB "a")]]) ∧
    ([[some (strB "a ")]] : List (List (Option Str))).map
        (fun r => dataConvert (renderRow r)) = [[some (strB "a ")]] ∧
    ([[some (strB "a")]] : List (List (Option Str)))
      ≠ [[some (strB "a ")]] := by
  refine ⟨⟨_, _, _,
    authored_save (strB "s") (strB "t") (strB "o") [] [] [strB "c"] exC1t
      (strB "d") (strB "v") (strB "w") [[some (strB "a ")]] (by decide),
    authored_load (strB "s") (strB "t") (strB "o") [] [] [strB "c"] exC1t
      (strB "d") (strB "v") (strB "w") _ _ (by decide) (by decide)
      (by decide) (by decide)
      (authoredTable_wf _ _ _ _ _ (by decide) (by decide) (by decide)
        (by decide) (by decide))
      (authoredTD_wf _ _ _ _ _ _ (by decide) (by decide) (by decide)
        (by decide) (by decide)
        (authoredToc_bound (strB "s") (strB "t") (strB "o") [] []
          (strB "d") (strB "v") (strB "w") [strB "c"] exC1t
          [[some (strB "a ")]] (by decide)))
      (authoredToc_length (strB "s") (strB "t") (strB "o") [] []
        [strB "c"] exC1t (strB "d") (strB "v") (strB "w")
        K_OFFSET_POS_SET _ K_OFFSET_POS_NOT_SET 0)
      (by decide) (by decide), ?_⟩, by decide, by decide⟩
  rw [table_data, authored_dataEntries]
  have hp : (fun e => decide (e.nspace = strB "s" ∧ e.tag = strB "t"))
      (normEntry (authoredTD (strB "s") (strB "t") (strB "o") [strB "c"]
        K_OFFSET_POS_SET
        (authoredToc (strB "s") (strB "t") (strB "o") [] [] [strB "c"]
          exC1t (strB "d") (strB "v") (strB "w")
          K_OFFSET_POS_NOT_SET 0).length)) = true := by
    simp only [decide_eq_true_eq]
    exact ⟨rfl, rfl⟩
  have hfind : List.find? (fun e => decide (e.nspace = strB "s"
      ∧ e.tag = strB "t"))
      [normEntry (authoredTD (strB "s") (strB "t") (strB "o") [strB "c"]
        K_OFFSET_POS_SET
        (authoredToc (strB "s") (strB "t") (strB "o") [] [] [strB "c"]
          exC1t (strB "d") (strB "v") (strB "w")
          K_OFFSET_POS_NOT_SET 0).length)]
      = some (normEntry (authoredTD (strB "s") (strB "t") (strB "o")
        [strB "c"] K_OFFSET_POS_SET
        (authoredToc (strB "s") (strB "t") (strB "o") [] [] [strB "c"]
          exC1t (strB "d") (strB "v") (strB "w")
          K_OFFSET_POS_NOT_SET 0).length)) :=
    List.find?_cons_of_pos [] hp
  rw [hfind]
  dsimp only
  rfl
